import Mathlib

/-!
Verification of the dcyfr ai-chatbot orchestration layer.

This file gives a shallow embedding, in Lean, of the conversation data
model, the message utilities, the memory strategies, the middleware
pipeline with its built-in content filter and rate limiter, the mock
provider, the streaming utilities and the chat engine of the repository,
and proves (or refutes) the testable properties stated in the design
document.  JavaScript numbers are modelled as Nat, Int or Rat as
appropriate; effects (fresh uuids, Date.now, the provider call) are
modelled by explicit parameters and by returned call/event logs; maps
are modelled as functions into Option.
-/

namespace DcyfrChat

/-- Message roles, from the MessageRoleSchema enum in types/index.ts. -/
inductive Role where
  | system
  | user
  | assistant
  | tool
deriving DecidableEq, Repr

/-- Finish reasons, from ChatResponse in types/index.ts. -/
inductive FinishReason where
  | stop
  | length
  | toolCalls
  | contentFilter
  | error
deriving DecidableEq, Repr

/-- Message metadata, from MessageMetadataSchema in types/index.ts. -/
structure MessageMetadata where
  timestamp : Int := 0
  model : Option String := none
  tokens : Option Nat := none
  latencyMs : Option Int := none
  toolCallId : Option String := none
  toolName : Option String := none
  finishReason : Option FinishReason := none
deriving DecidableEq, Repr

/-- A chat message, from MessageSchema in types/index.ts. -/
structure Message where
  id : String
  role : Role
  content : String
  name : Option String := none
  metadata : MessageMetadata := {}
deriving DecidableEq, Repr

/-- Options record accepted by createMessage in chat/message.ts. -/
structure CreateMessageOptions where
  id : Option String := none
  name : Option String := none
  model : Option String := none
  toolCallId : Option String := none
  toolName : Option String := none
  tokens : Option Nat := none
  latencyMs : Option Int := none
  finishReason : Option FinishReason := none

/-- createMessage from chat/message.ts.  The effectful randomUUID() and
Date.now() calls are modelled by the explicit freshId and now arguments. -/
def createMessage (role : Role) (content : String)
    (opts : CreateMessageOptions := {}) (freshId : String := "") (now : Int := 0) :
    Message :=
  { id := opts.id.getD freshId
    role := role
    content := content
    name := opts.name
    metadata :=
      { timestamp := now
        model := opts.model
        tokens := opts.tokens
        latencyMs := opts.latencyMs
        toolCallId := opts.toolCallId
        toolName := opts.toolName
        finishReason := opts.finishReason } }

/-- String.prototype.startsWith, modelled on the character list so that
it computes by kernel reduction. -/
def jsStartsWith (s pre : String) : Bool :=
  pre.toList.isPrefixOf s.toList

/-- String.prototype.trim: strip leading and trailing whitespace. -/
def jsTrim (s : String) : String :=
  String.mk (((s.toList.dropWhile Char.isWhitespace).reverse.dropWhile
    Char.isWhitespace).reverse)

/-- String.prototype.toLowerCase, for the ASCII inputs the built-in
filter rules care about. -/
def asciiLower (s : String) : String :=
  String.mk (s.toList.map Char.toLower)

/-- estimateTokens from chat/message.ts: Math.ceil(text.length / 4). -/
def estimateTokens (text : String) : Nat :=
  (text.length + 3) / 4

/-- estimateMessagesTokens from chat/message.ts: per message, content
tokens plus a flat overhead of 4, plus name tokens and 1 more when a
name is present. -/
def estimateMessagesTokens (messages : List Message) : Nat :=
  messages.foldl
    (fun total msg =>
      let total := total + estimateTokens msg.content + 4
      match msg.name with
      | some n => total + estimateTokens n + 1
      | none => total)
    0

/-- Result record of validateMessageContent in chat/message.ts. -/
structure ValidationResult where
  valid : Bool
  error : Option String := none
deriving DecidableEq, Repr

/-- validateMessageContent from chat/message.ts.  The JavaScript test
(!content || content.trim().length === 0) collapses to the trim test,
since the empty string is the only falsy string. -/
def validateMessageContent (content : String) : ValidationResult :=
  if (jsTrim content).length = 0 then
    { valid := false, error := some "Message content cannot be empty" }
  else if content.length > 100000 then
    { valid := false
      error := some "Message content exceeds maximum length (100,000 characters)" }
  else
    { valid := true }

/-- The per-message token amount used by the truncation loop in
truncateMessages: content tokens plus 4, the name overhead is not
counted there. -/
def loopTokens (m : Message) : Int :=
  (estimateTokens m.content : Int) + 4

/-- The backward walk of truncateMessages in chat/message.ts: rev is the
reversed list of non-system messages, current the accumulated token
count; messages are prepended to acc until the next one would exceed the
budget. -/
def truncGo (budget : Int) : Int → List Message → List Message → List Message
  | _, [], acc => acc
  | current, m :: rest, acc =>
    if current + loopTokens m > budget then acc
    else truncGo budget (current + loopTokens m) rest (m :: acc)

/-- truncateMessages from chat/message.ts.  System messages are kept in
full when keepSystemMessages is true (the default), and the remaining
messages are walked from most recent to oldest. -/
def truncateMessages (messages : List Message) (maxTokens : Int)
    (keepSystemMessages : Bool := true) : List Message :=
  let systemMessages :=
    if keepSystemMessages then messages.filter (fun m => m.role = .system) else []
  let nonSystemMessages :=
    if keepSystemMessages then messages.filter (fun m => m.role ≠ .system) else messages
  let systemTokens : Int := estimateMessagesTokens systemMessages
  let remainingBudget : Int := maxTokens - systemTokens
  if remainingBudget ≤ 0 then systemMessages
  else systemMessages ++ truncGo remainingBudget 0 nonSystemMessages.reverse []

/-- Conversation metadata, from ConversationMetadataSchema in
types/index.ts.  totalTokens and messageCount are Int because
updateMetadata can overwrite them with arbitrary caller-supplied
numbers. -/
structure ConversationMetadata where
  title : Option String := none
  tags : List String := []
  systemPrompt : Option String := none
  model : Option String := none
  totalTokens : Int := 0
  messageCount : Int := 0
deriving DecidableEq, Repr

/-- A conversation, from ConversationSchema in types/index.ts. -/
structure Conversation where
  id : String
  messages : List Message := []
  metadata : ConversationMetadata := {}
  createdAt : Int := 0
  updatedAt : Int := 0
deriving DecidableEq, Repr

/-- The private Map of ConversationManager in chat/conversation.ts,
modelled as a function into Option. -/
def ConversationStore := String → Option Conversation

namespace ConversationManager

def emptyStore : ConversationStore := fun _ => none

/-- Map.set on the conversation store. -/
def storeSet (cm : ConversationStore) (k : String) (v : Option Conversation) :
    ConversationStore :=
  fun k2 => if k2 = k then v else cm k2

/-- Options record accepted by ConversationManager.create. -/
structure CreateOptions where
  id : Option String := none
  title : Option String := none
  systemPrompt : Option String := none
  tags : Option (List String) := none
  model : Option String := none

/-- ConversationManager.create from chat/conversation.ts; freshId models
randomUUID() and now models Date.now().  Note that an existing
conversation under the same id is overwritten by Map.set. -/
def create (cm : ConversationStore) (opts : CreateOptions)
    (freshId : String) (now : Int) : Conversation × ConversationStore :=
  let conversation : Conversation :=
    { id := opts.id.getD freshId
      messages := []
      metadata :=
        { title := opts.title
          tags := opts.tags.getD []
          systemPrompt := opts.systemPrompt
          model := opts.model
          totalTokens := 0
          messageCount := 0 }
      createdAt := now
      updatedAt := now }
  (conversation, storeSet cm conversation.id (some conversation))

/-- ConversationManager.get. -/
def get (cm : ConversationStore) (id : String) : Option Conversation := cm id

/-- ConversationManager.getOrCreate from chat/conversation.ts. -/
def getOrCreate (cm : ConversationStore) (id : String)
    (systemPrompt model : Option String) (now : Int) :
    Conversation × ConversationStore :=
  match cm id with
  | some existing => (existing, cm)
  | none => create cm { id := some id, systemPrompt := systemPrompt, model := model } "" now

/-- ConversationManager.addMessage from chat/conversation.ts: push the
message, set messageCount to the new list length, add the estimated
content tokens to totalTokens, bump updatedAt.  On an unknown id the
source throws NotFoundError before mutating anything; the store is then
returned unchanged here. -/
def addMessage (cm : ConversationStore) (conversationId : String)
    (message : Message) (now : Int) : ConversationStore :=
  match cm conversationId with
  | none => cm
  | some c =>
    let messages := c.messages ++ [message]
    let c' : Conversation :=
      { c with
        messages := messages
        metadata :=
          { c.metadata with
            messageCount := (messages.length : Int)
            totalTokens := c.metadata.totalTokens + estimateTokens message.content }
        updatedAt := now }
    storeSet cm conversationId (some c')

/-- ConversationManager.getMessages with no filter options, as used by
the engine: a copy of the message list, empty for an unknown id. -/
def getMessages (cm : ConversationStore) (conversationId : String) : List Message :=
  match cm conversationId with
  | none => []
  | some c => c.messages

/-- Partial ConversationMetadata as accepted by updateMetadata: a field
that is none is absent from the update object. -/
structure MetadataUpdates where
  title : Option String := none
  tags : Option (List String) := none
  systemPrompt : Option String := none
  model : Option String := none
  totalTokens : Option Int := none
  messageCount : Option Int := none
deriving DecidableEq, Repr

/-- The object spread { ...metadata, ...updates }: a present update key
replaces the field, an absent one keeps it. -/
def applyUpdates (md : ConversationMetadata) (u : MetadataUpdates) :
    ConversationMetadata :=
  { title := match u.title with | some t => some t | none => md.title
    tags := u.tags.getD md.tags
    systemPrompt := match u.systemPrompt with | some s => some s | none => md.systemPrompt
    model := match u.model with | some s => some s | none => md.model
    totalTokens := u.totalTokens.getD md.totalTokens
    messageCount := u.messageCount.getD md.messageCount }

/-- ConversationManager.updateMetadata from chat/conversation.ts.  On an
unknown id the source throws; the store is returned unchanged here. -/
def updateMetadata (cm : ConversationStore) (conversationId : String)
    (updates : MetadataUpdates) (now : Int) : ConversationStore :=
  match cm conversationId with
  | none => cm
  | some c =>
    let c' : Conversation :=
      { c with metadata := applyUpdates c.metadata updates, updatedAt := now }
    storeSet cm conversationId (some c')

/-- ConversationManager.delete. -/
def deleteConv (cm : ConversationStore) (id : String) : ConversationStore :=
  storeSet cm id none

/-- ConversationManager.clear. -/
def clearAll (_ : ConversationStore) : ConversationStore := fun _ => none

/-- One ConversationManager mutation, for stating store invariants over
operation sequences (export/import, which round-trips through JSON, is
not modelled). -/
inductive MgrOp where
  | create (opts : CreateOptions) (freshId : String) (now : Int)
  | getOrCreate (id : String) (systemPrompt model : Option String) (now : Int)
  | addMessage (id : String) (message : Message) (now : Int)
  | updateMetadata (id : String) (updates : MetadataUpdates) (now : Int)
  | deleteConv (id : String)
  | clearAll

/-- Effect of one operation on the store. -/
def stepOp (cm : ConversationStore) : MgrOp → ConversationStore
  | .create opts freshId now => (create cm opts freshId now).2
  | .getOrCreate id sp mdl now => (getOrCreate cm id sp mdl now).2
  | .addMessage id m now => addMessage cm id m now
  | .updateMetadata id u now => updateMetadata cm id u now
  | .deleteConv id => deleteConv cm id
  | .clearAll => clearAll cm

/-- Effect of a sequence of operations, first to last. -/
def applyOps (ops : List MgrOp) (cm : ConversationStore) : ConversationStore :=
  ops.foldl stepOp cm

/-- An operation that does not overwrite the two bookkeeping counters:
any operation except an updateMetadata carrying totalTokens or
messageCount. -/
def benignOp : MgrOp → Bool
  | .updateMetadata _ u _ => u.totalTokens.isNone && u.messageCount.isNone
  | _ => true

/-- An operation that does not re-create a conversation id currently
held by the store (create overwrites, resetting the token counter). -/
def noOverwrite (cm : ConversationStore) : MgrOp → Prop
  | .create opts freshId _ => cm (opts.id.getD freshId) = none
  | _ => True

end ConversationManager

/-- Array.prototype.slice(-w) for a natural w, as used by the
sliding-window and summary strategies: the last w elements, except that
w = 0 means slice(0), a copy of the whole array (in JavaScript -0 is 0). -/
def sliceLast {α : Type} (w : Nat) (l : List α) : List α :=
  if w = 0 then l else l.drop (l.length - w)

/-- Options of SlidingWindowMemory. -/
structure SlidingWindowOptions where
  windowSize : Nat
  maxTokens : Int
  keepSystemMessages : Bool := true

namespace SlidingWindowMemory

/-- The per-conversation store of SlidingWindowMemory; a missing key
reads as the empty list, matching the ?? [] in the source. -/
def Store := String → List Message

def emptyStore : Store := fun _ => []

/-- SlidingWindowMemory.applyWindow: system messages are separated out
and always kept, the rest is collapsed to the most recent windowSize
entries. -/
def applyWindow (opts : SlidingWindowOptions) (messages : List Message) :
    List Message :=
  let systemMessages :=
    if opts.keepSystemMessages then messages.filter (fun m => m.role = .system) else []
  let nonSystemMessages :=
    if opts.keepSystemMessages then messages.filter (fun m => m.role ≠ .system) else messages
  let windowed := sliceLast opts.windowSize nonSystemMessages
  systemMessages ++ windowed

/-- SlidingWindowMemory.save: append the new messages to the stored ones
and write back the windowed result. -/
def save (opts : SlidingWindowOptions) (store : Store)
    (conversationId : String) (messages : List Message) : Store :=
  let existing := store conversationId
  let all := existing ++ messages
  fun k => if k = conversationId then applyWindow opts all else store k

/-- SlidingWindowMemory.load. -/
def load (store : Store) (conversationId : String) : List Message :=
  store conversationId

/-- A sequence of save calls applied to a store. -/
def applySaves (opts : SlidingWindowOptions)
    (saves : List (String × List Message)) (store : Store) : Store :=
  saves.foldl (fun st sv => save opts st sv.1 sv.2) store

end SlidingWindowMemory

/-- The fixed marker string prepended to the synthetic summary message
by SummaryMemory.load. -/
def summaryMarker : String := "Previous conversation summary:"

/-- Options of SummaryMemory; the summarizer delegate is modelled as a
pure function. -/
structure SummaryMemoryOptions where
  recentCount : Nat
  maxSummaryTokens : Nat
  summarizer : List Message → String

/-- The role names used when serializing messages for the summarizer. -/
def roleString : Role → String
  | .system => "system"
  | .user => "user"
  | .assistant => "assistant"
  | .tool => "tool"

/-- defaultSummarizer from the summary-memory module: concatenate the
contents and truncate to about 500 characters. -/
def defaultSummarizer (messages : List Message) : String :=
  let content := String.intercalate "\n" (messages.map (fun m => m.content))
  if content.length > 500 then content.take 497 ++ "..." else content

/-- The two private Maps of SummaryMemory. -/
structure SummaryState where
  store : String → List Message := fun _ => []
  summaries : String → Option String := fun _ => none

namespace SummaryMemory

def emptyState : SummaryState := {}

/-- The combined content handed to the summarizer delegate by
SummaryMemory.save: any existing summary text, a newline, then the
serialized overflow messages (role colon content, one per line). -/
def summaryInput (st : SummaryState) (conversationId : String)
    (toSummarize : List Message) : String :=
  let existingSummary := (st.summaries conversationId).getD ""
  let newContent :=
    String.intercalate "\n"
      (toSummarize.map (fun m => roleString m.role ++ ": " ++ m.content))
  if existingSummary ≠ "" then existingSummary ++ "\n" ++ newContent else newContent

/-- SummaryMemory.save: when the accumulated messages exceed
recentCount, the overflow (oldest) part is serialized, concatenated
after any existing summary text, handed to the summarizer delegate, and
the delegate result replaces the stored summary; only the most recent
recentCount messages are written back.  freshId and now feed the
createMessage call for the synthetic system message given to the
summarizer. -/
def save (opts : SummaryMemoryOptions) (st : SummaryState)
    (conversationId : String) (messages : List Message)
    (freshId : String) (now : Int) : SummaryState :=
  let existing := st.store conversationId
  let all := existing ++ messages
  if all.length > opts.recentCount then
    let toSummarize := all.take (all.length - opts.recentCount)
    let recent := sliceLast opts.recentCount all
    let combinedContent := summaryInput st conversationId toSummarize
    let summary := opts.summarizer [createMessage .system combinedContent {} freshId now]
    { store := fun k => if k = conversationId then recent else st.store k
      summaries := fun k => if k = conversationId then some summary else st.summaries k }
  else
    { st with store := fun k => if k = conversationId then all else st.store k }

/-- SummaryMemory.load: prepend a synthetic system message carrying the
summary, when one exists. -/
def load (st : SummaryState) (conversationId : String)
    (freshId : String) (now : Int) : List Message :=
  let messages := st.store conversationId
  match st.summaries conversationId with
  | some summary =>
    createMessage .system (summaryMarker ++ "\n" ++ summary) {} freshId now :: messages
  | none => messages

/-- The findIndex plus splice step of SummaryMemory.getContext: remove
the first message whose content does not start with the summary marker,
returning it together with the remaining list; none corresponds to
findIndex returning -1. -/
def dropFirstNonSummary : List Message → Option (Message × List Message)
  | [] => none
  | m :: rest =>
    if jsStartsWith m.content summaryMarker then
      (dropFirstNonSummary rest).map (fun p => (p.1, m :: p.2))
    else some (m, rest)

theorem dropFirstNonSummary_length :
    ∀ {l : List Message} {m : Message} {rest : List Message},
      dropFirstNonSummary l = some (m, rest) → rest.length < l.length := by
  intro l
  induction l with
  | nil => intro m rest h; simp [dropFirstNonSummary] at h
  | cons x xs ih =>
    intro m rest h
    simp only [dropFirstNonSummary] at h
    by_cases hx : jsStartsWith x.content summaryMarker
    · rw [if_pos hx] at h
      cases he : dropFirstNonSummary xs with
      | none => rw [he] at h; simp at h
      | some p =>
        obtain ⟨m1, r1⟩ := p
        rw [he] at h
        simp only [Option.map_some', Option.some.injEq, Prod.mk.injEq] at h
        obtain ⟨h1, h2⟩ := h
        subst h2
        have hlt := ih he
        simp only [List.length_cons]
        exact Nat.succ_lt_succ hlt
    · rw [if_neg hx] at h
      simp only [Option.some.injEq, Prod.mk.injEq] at h
      obtain ⟨h1, h2⟩ := h
      subst h2
      simp

/-- The while loop of SummaryMemory.getContext: while the running total
exceeds maxTokens and more than one message remains, remove the oldest
non-summary message and subtract its loop estimate (content tokens plus
4; a name overhead is not subtracted). -/
def evictLoop (maxTokens : Int) (total : Int) (result : List Message) :
    List Message :=
  if total > maxTokens ∧ result.length > 1 then
    match h : dropFirstNonSummary result with
    | none => result
    | some p =>
      evictLoop maxTokens (total - ((estimateTokens p.1.content : Int) + 4)) p.2
  else result
termination_by result.length
decreasing_by exact dropFirstNonSummary_length h

/-- SummaryMemory.getContext: load (summary message first), then evict
oldest non-summary messages until the estimate fits maxTokens or a
single message remains. -/
def getContext (st : SummaryState) (conversationId : String)
    (maxTokens : Int) (freshId : String) (now : Int) : List Message :=
  let messages := load st conversationId freshId now
  evictLoop maxTokens (estimateMessagesTokens messages) messages

end SummaryMemory

/-- Tool-call arguments (a JSON record in the source, opaque here). -/
def ToolArgs := List (String × String)

/-- A tool call, from ToolCallSchema in types/index.ts. -/
structure ToolCall where
  id : String
  name : String
  arguments : ToolArgs

/-- A tool definition; execute is modelled as a pure fallible function,
already returning the stringified result (the source stringifies
non-string results), and the JSON parameter schema is omitted. -/
structure ToolDefinition where
  name : String
  description : String := ""
  execute : Option (ToolArgs → Except String String) := none

/-- Token usage, from TokenUsageSchema. -/
structure TokenUsage where
  promptTokens : Nat
  completionTokens : Nat
  totalTokens : Nat
deriving DecidableEq, Repr

/-- Memory configuration fields used by the engine. -/
structure MemoryConfig where
  windowSize : Nat := 20
  maxTokens : Int := 8192
deriving DecidableEq, Repr

/-- Engine configuration fields used by the embedded code paths, with
the schema defaults from ChatConfigSchema. -/
structure ChatConfig where
  model : String := "gpt-4o"
  temperature : ℚ := 7 / 10
  maxTokens : Nat := 4096
  systemPrompt : String := "You are a helpful AI assistant."
  memory : MemoryConfig := {}
  tools : List ToolDefinition := []

/-- Per-request option overrides of a chat request. -/
structure ChatOptions where
  temperature : Option ℚ := none
  maxTokens : Option Nat := none
  model : Option String := none
  tools : Option (List ToolDefinition) := none

/-- A chat request, from ChatRequestSchema. -/
structure ChatRequest where
  conversationId : Option String := none
  message : String
  role : Option Role := none
  stream : Bool := false
  options : Option ChatOptions := none

/-- A chat response, from the ChatResponse interface. -/
structure ChatResponse where
  message : Message
  conversationId : String
  usage : Option TokenUsage := none
  toolCalls : Option (List ToolCall) := none
  finishReason : FinishReason

/-- Severity levels of content filter rules. -/
inductive FilterSeverity where
  | low
  | medium
  | high
  | critical
deriving DecidableEq, Repr

/-- Rule types of content filter rules. -/
inductive FilterType where
  | profanity
  | pii
  | injection
  | harmful
  | custom
deriving DecidableEq, Repr

/-- A content filter rule; the RegExp pattern is modelled as its test
function on strings. -/
structure ContentFilterRule where
  name : String
  type : FilterType
  severity : FilterSeverity
  pattern : String → Bool
  description : Option String := none

/-- One flag of a ContentFilterResult; the source field named match is
called matchName here because match is a reserved word in Lean. -/
structure ContentFilterFlag where
  type : FilterType
  severity : FilterSeverity
  matchName : String
  description : Option String := none
deriving DecidableEq, Repr

/-- Result of running content through filter rules. -/
structure ContentFilterResult where
  safe : Bool
  flags : List ContentFilterFlag
deriving DecidableEq, Repr

/-!
A small matcher for the six built-in RegExp literals of
content-filter.ts.  A matcher consumes some of the input and returns
every possible (previous character, remaining input) pair after a
match, so that zero-width word-boundary assertions can inspect both
neighbours; testing a pattern means searching for a match at every
start position, as RegExp.prototype.test does.
-/

namespace Rx

/-- Matchers take the character just before the current position (none
at the start of the string) and the remaining input. -/
def Matcher := Option Char → List Char → List (Option Char × List Char)

/-- The empty pattern. -/
def mEps : Matcher := fun prev s => [(prev, s)]

/-- A single-character class. -/
def mChar (p : Char → Bool) : Matcher := fun _ s =>
  match s with
  | [] => []
  | c :: rest => if p c then [(some c, rest)] else []

/-- Concatenation. -/
def mSeq (a b : Matcher) : Matcher := fun prev s =>
  (a prev s).flatMap (fun pr => b pr.1 pr.2)

/-- Alternation. -/
def mAlt (a b : Matcher) : Matcher := fun prev s => a prev s ++ b prev s

/-- The ? quantifier. -/
def mOpt (a : Matcher) : Matcher := mAlt a mEps

/-- An exact repetition count, for the {n} quantifier. -/
def mRep (a : Matcher) : Nat → Matcher
  | 0 => mEps
  | n + 1 => mSeq a (mRep a n)

/-- All non-empty runs of characters of a class, from a position. -/
def runsAux (p : Char → Bool) : List Char → List (Option Char × List Char)
  | [] => []
  | c :: rest => if p c then (some c, rest) :: runsAux p rest else []

/-- The + quantifier on a character class. -/
def mPlus (p : Char → Bool) : Matcher := fun _ s => runsAux p s

/-- The {n,} quantifier on a character class. -/
def mAtLeast (p : Char → Bool) (n : Nat) : Matcher :=
  mSeq (mRep (mChar p) n) (mOpt (mPlus p))

/-- Concatenation of a list of matchers. -/
def seqList (l : List Matcher) : Matcher := l.foldr mSeq mEps

/-- Alternation over a list of matchers, for (?:a|b|c) groups. -/
def altList (l : List Matcher) : Matcher := l.foldr mAlt (fun _ _ => [])

/-- A literal string. -/
def mStr (t : String) : Matcher :=
  t.toList.foldr (fun c acc => mSeq (mChar (fun x => x = c)) acc) mEps

/-- The RegExp word-character class [A-Za-z0-9_]. -/
def isWordChar (c : Char) : Bool := c.isAlpha || c.isDigit || c = '_'

/-- The zero-width word-boundary assertion. -/
def mBound : Matcher := fun prev s =>
  let left := match prev with | some c => isWordChar c | none => false
  let right := match s with | c :: _ => isWordChar c | [] => false
  if left ≠ right then [(prev, s)] else []

/-- Search for a match starting at any position. -/
def searchAux (m : Matcher) : Option Char → List Char → Bool
  | prev, [] => !(m prev []).isEmpty
  | prev, c :: rest => !(m prev (c :: rest)).isEmpty || searchAux m (some c) rest

/-- RegExp.prototype.test. -/
def rtest (m : Matcher) (s : String) : Bool := searchAux m none s.toList

def digit (c : Char) : Bool := c.isDigit

/-- The class [A-Za-z0-9._%+-]. -/
def emailLocal (c : Char) : Bool :=
  c.isAlpha || c.isDigit || c = '.' || c = '_' || c = '%' || c = '+' || c = '-'

/-- The class [A-Za-z0-9.-]. -/
def emailDomain (c : Char) : Bool := c.isAlpha || c.isDigit || c = '.' || c = '-'

/-- The class [A-Z|a-z] of the email rule, which literally contains the
bar character. -/
def emailTld (c : Char) : Bool := c.isAlpha || c = '|'

/-- The class [-.]. -/
def dashOrDot (c : Char) : Bool := c = '-' || c = '.'

/-- The class [- ]. -/
def dashOrSpace (c : Char) : Bool := c = '-' || c = ' '

/-- The whitespace class backslash-s. -/
def ws (c : Char) : Bool := c.isWhitespace

def emailPattern : Matcher :=
  seqList [mBound, mPlus emailLocal, mChar (fun c => c = '@'), mPlus emailDomain,
    mChar (fun c => c = '.'), mAtLeast emailTld 2, mBound]

def phonePattern : Matcher :=
  seqList [mBound, mRep (mChar digit) 3, mOpt (mChar dashOrDot),
    mRep (mChar digit) 3, mOpt (mChar dashOrDot), mRep (mChar digit) 4, mBound]

def ssnPattern : Matcher :=
  seqList [mBound, mRep (mChar digit) 3, mChar (fun c => c = '-'),
    mRep (mChar digit) 2, mChar (fun c => c = '-'), mRep (mChar digit) 4, mBound]

def creditCardPattern : Matcher :=
  seqList [mBound, mRep (mChar digit) 4, mOpt (mChar dashOrSpace),
    mRep (mChar digit) 4, mOpt (mChar dashOrSpace), mRep (mChar digit) 4,
    mOpt (mChar dashOrSpace), mRep (mChar digit) 4, mBound]

def promptInjectionPattern : Matcher :=
  seqList [altList [mStr "ignore", mStr "forget", mStr "disregard"],
    mPlus ws,
    mOpt (mSeq (mStr "all") (mPlus ws)),
    altList [mStr "previous", mStr "above", mStr "prior"],
    mPlus ws,
    altList [mStr "instructions", mStr "prompts", mStr "context"]]

def extractionPattern : Matcher :=
  seqList [altList [mStr "show", mStr "reveal", mStr "display", mStr "output",
      mStr "print", mStr "repeat"],
    mPlus ws,
    mOpt (mSeq (mStr "your") (mPlus ws)),
    mOpt (mSeq (mStr "system") (mPlus ws)),
    altList [mStr "prompt", mStr "instructions", mStr "rules"]]

end Rx

/-- DEFAULT_FILTER_RULES from middleware/content-filter.ts.  The two
injection rules carry the i flag in the source and are therefore tested
against the lowercased input. -/
def DEFAULT_FILTER_RULES : List ContentFilterRule :=
  [ { name := "email-pii", type := .pii, severity := .medium,
      pattern := fun s => Rx.rtest Rx.emailPattern s,
      description := some "Email address detected" },
    { name := "phone-pii", type := .pii, severity := .medium,
      pattern := fun s => Rx.rtest Rx.phonePattern s,
      description := some "Phone number detected" },
    { name := "ssn-pii", type := .pii, severity := .critical,
      pattern := fun s => Rx.rtest Rx.ssnPattern s,
      description := some "SSN pattern detected" },
    { name := "credit-card-pii", type := .pii, severity := .critical,
      pattern := fun s => Rx.rtest Rx.creditCardPattern s,
      description := some "Credit card number detected" },
    { name := "prompt-injection", type := .injection, severity := .high,
      pattern := fun s => Rx.rtest Rx.promptInjectionPattern (asciiLower s),
      description := some "Prompt injection attempt detected" },
    { name := "system-prompt-extraction", type := .injection, severity := .high,
      pattern := fun s => Rx.rtest Rx.extractionPattern (asciiLower s),
      description := some "System prompt extraction attempt detected" } ]

/-- filterContent from middleware/content-filter.ts: collect a flag for
every rule whose pattern matches, in rule order. -/
def filterContent (content : String) (rules : List ContentFilterRule) :
    ContentFilterResult :=
  let flags :=
    (rules.filter (fun r => r.pattern content)).map
      (fun r =>
        { type := r.type, severity := r.severity, matchName := r.name,
          description := r.description : ContentFilterFlag })
  { safe := flags.isEmpty, flags := flags }

/-- The severityOrder record of createContentFilter. -/
def severityOrder : FilterSeverity → Nat
  | .low => 0
  | .medium => 1
  | .high => 2
  | .critical => 3

/-- Options of createContentFilter. -/
structure ContentFilterOptions where
  rules : List ContentFilterRule := []
  useDefaults : Bool := true
  blockSeverity : FilterSeverity := .high
  redactPII : Bool := false

/-- Values stored in the middleware context scratch space (a record of
unknowns in the source; only the value shapes the built-ins store are
needed). -/
inductive MetaVal where
  | num (n : Int)
  | str (s : String)
  | filterRes (r : ContentFilterResult)

/-- The middleware context from types/index.ts. -/
structure MiddlewareContext where
  request : ChatRequest
  conversation : Conversation
  config : ChatConfig
  metadata : String → Option MetaVal

/-- Assignment to one key of the context scratch space. -/
def metaSet (md : String → Option MetaVal) (k : String) (v : MetaVal) :
    String → Option MetaVal :=
  fun k2 => if k2 = k then some v else md k2

/-- The middleware result from types/index.ts. -/
structure MiddlewareResult where
  proceed : Bool
  context : MiddlewareContext
  error : Option String := none

/-- A middleware.  In the source, execute receives a nullary next
continuation that reads the shared mutable result.context, which at
that point is the same object the middleware received (including any
mutation the middleware performed on it); here next takes that context
explicitly. -/
structure Middleware where
  name : String
  description : Option String := none
  priority : Int := 0
  execute : MiddlewareContext →
    (MiddlewareContext → MiddlewareResult) → MiddlewareResult

/-- The recursive next chain of ChatEngine.executeMiddleware. -/
def runChain : List Middleware → MiddlewareContext → MiddlewareResult
  | [], ctx => { proceed := true, context := ctx }
  | mw :: rest, ctx => mw.execute ctx (fun c => runChain rest c)

/-- ChatEngine.executeMiddleware: an empty middleware list always
proceeds, otherwise the chain runs from the first middleware. -/
def executeMiddleware (middlewares : List Middleware)
    (ctx : MiddlewareContext) : MiddlewareResult :=
  if middlewares.isEmpty then { proceed := true, context := ctx }
  else runChain middlewares ctx

/-- The rule list assembled by createContentFilter: the defaults (when
enabled) followed by the custom rules. -/
def effectiveRules (options : ContentFilterOptions) : List ContentFilterRule :=
  if options.useDefaults then DEFAULT_FILTER_RULES ++ options.rules
  else options.rules

/-- createContentFilter from middleware/content-filter.ts: block when
some flag reaches the threshold, otherwise record the filter result in
the context metadata and continue. -/
def createContentFilter (options : ContentFilterOptions := {}) : Middleware :=
  let rules := effectiveRules options
  let blockThreshold := severityOrder options.blockSeverity
  { name := "content-filter"
    description := some "Content safety and moderation filter"
    priority := -90
    execute := fun context next =>
      let result := filterContent context.request.message rules
      if !result.safe &&
          result.flags.any (fun f => blockThreshold ≤ severityOrder f.severity) then
        { proceed := false
          context := context
          error := some ("Message blocked by content filter: " ++
            String.intercalate ", " (result.flags.map (fun f => f.matchName))) }
      else
        next { context with
          metadata := metaSet context.metadata "contentFilterResult" (.filterRes result) } }

namespace RateLimiter

end RateLimiter

/-- Stream chunk types, from StreamChunkTypeSchema. -/
inductive StreamChunkType where
  | token
  | toolCall
  | toolResult
  | metadata
  | error
  | done
deriving DecidableEq, Repr

/-- The metadata record attached to done chunks by the mock provider. -/
structure ChunkMeta where
  model : Option String := none
  usage : Option TokenUsage := none
deriving DecidableEq, Repr

/-- A stream chunk.  The unknown-typed data payload is modelled as an
optional string: none models null and non-string payloads, since only
string payloads are ever inspected. -/
structure StreamChunk where
  type : StreamChunkType
  data : Option String := none
  timestamp : Int := 0
  metadata : Option ChunkMeta := none
deriving DecidableEq, Repr

/-- createStreamChunk from streaming/stream-handler.ts, with Date.now
passed explicitly. -/
def createStreamChunk (type : StreamChunkType) (data : Option String)
    (now : Int := 0) (metadata : Option ChunkMeta := none) : StreamChunk :=
  { type := type, data := data, timestamp := now, metadata := metadata }

/-- The content accumulation performed by StreamCollector.add and by the
streaming path of the engine: concatenate the payloads of token chunks
whose data is a string. -/
def concatTokenData (chunks : List StreamChunk) : String :=
  chunks.foldl
    (fun acc c =>
      match c.type, c.data with
      | .token, some s => acc ++ s
      | _, _ => acc)
    ""

/-- String.prototype.split with a single-character separator, on
character lists: consecutive separators yield empty fields and the
empty input yields one empty field. -/
def splitChar (sep : Char) : List Char → List (List Char)
  | [] => [[]]
  | c :: rest =>
    match splitChar sep rest with
    | [] => [[c]]
    | w :: ws => if c = sep then [] :: w :: ws else (c :: w) :: ws

/-- Joining with a single-character separator, the inverse of splitChar. -/
def joinChar (sep : Char) : List (List Char) → List Char
  | [] => []
  | [w] => w
  | w :: ws => w ++ sep :: joinChar sep ws

/-- responseContent.split(' ') from MockProvider.stream. -/
def jsSplitSpace (s : String) : List String :=
  (splitChar ' ' s.toList).map String.mk

/-- String.prototype.includes, on character lists. -/
def listIncludes (pat : List Char) : List Char → Bool
  | [] => pat.isEmpty
  | c :: rest => pat.isPrefixOf (c :: rest) || listIncludes pat rest

/-- String.prototype.includes. -/
def jsIncludes (s sub : String) : Bool := listIncludes sub.toList s.toList

/-- A provider request, from ProviderRequest in types/index.ts. -/
structure ProviderRequest where
  messages : List Message
  model : String
  temperature : ℚ
  maxTokens : Nat
  tools : Option (List ToolDefinition) := none
  stream : Bool := false

/-- A provider response, from ProviderResponse in types/index.ts. -/
structure ProviderResponse where
  message : Message
  usage : TokenUsage
  toolCalls : Option (List ToolCall) := none
  finishReason : FinishReason

/-- Options of MockProvider.  The error simulation draws Math.random()
against errorRate; that draw is modelled by the randHit oracle argument
of complete and stream, and the latency options have no observable
effect in a pure model. -/
structure MockProviderOptions where
  defaultResponse : String := "This is a mock response."
  responses : List (String × String) := []
  latencyMs : Nat := 0
  tokensPerResponse : Nat := 10
  simulateErrors : Bool := false
  toolCalls : List ToolCall := []
  streamDelayMs : Nat := 0

namespace MockProvider

/-- MockProvider.getResponse: look for a trigger word of the responses
map inside the lowercased last user message. -/
def getResponse (opts : MockProviderOptions) (messages : List Message) : String :=
  match messages.reverse.find? (fun m => m.role = .user) with
  | some lastUserMessage =>
    let content := asciiLower lastUserMessage.content
    match opts.responses.find? (fun tr => jsIncludes content tr.1) with
    | some tr => tr.2
    | none => opts.defaultResponse
  | none => opts.defaultResponse

/-- The prompt-token estimate of the mock provider:
Math.ceil of the sum of content lengths divided by 4. -/
def mockPromptTokens (messages : List Message) : Nat :=
  ((messages.foldl (fun s m => s + m.content.length) 0) + 3) / 4

/-- MockProvider.complete.  A thrown simulated error is modelled as the
error case of Except. -/
def complete (opts : MockProviderOptions) (randHit : Bool)
    (request : ProviderRequest) (freshId : String) (now : Int) :
    Except String ProviderResponse :=
  if opts.simulateErrors && randHit then .error "Mock provider simulated error"
  else
    let responseContent := getResponse opts request.messages
    let message := createMessage .assistant responseContent
      { model := some request.model, tokens := some opts.tokensPerResponse } freshId now
    .ok
      { message := message
        usage :=
          { promptTokens := mockPromptTokens request.messages
            completionTokens := opts.tokensPerResponse
            totalTokens := mockPromptTokens request.messages + opts.tokensPerResponse }
        toolCalls := if opts.toolCalls.length > 0 then some opts.toolCalls else none
        finishReason := if opts.toolCalls.length > 0 then .toolCalls else .stop }

/-- MockProvider.stream: the response content split on spaces, the
first chunk carrying the first word and every later chunk a space plus
the word, followed by a done chunk carrying usage metadata. -/
def stream (opts : MockProviderOptions) (randHit : Bool)
    (request : ProviderRequest) (now : Int) : List StreamChunk :=
  if opts.simulateErrors && randHit then
    [createStreamChunk .error (some "Mock provider simulated error") now]
  else
    let responseContent := getResponse opts request.messages
    let words := jsSplitSpace responseContent
    let tokens := words.enum.map
      (fun iw =>
        createStreamChunk .token (some (if iw.1 = 0 then iw.2 else " " ++ iw.2)) now)
    tokens ++
      [createStreamChunk .done none now
        (some
          { model := some request.model
            usage := some
              { promptTokens := mockPromptTokens request.messages
                completionTokens := opts.tokensPerResponse
                totalTokens := mockPromptTokens request.messages + opts.tokensPerResponse } })]

end MockProvider

/-- The provider capability consumed by the engine: complete and stream,
modelled as pure functions (an exception from complete is the error
case). -/
structure Provider where
  complete : ProviderRequest → Except String ProviderResponse
  stream : ProviderRequest → List StreamChunk

/-- Plugin hooks.  onBeforeChat and onAfterChat transform values and are
modelled as functions; onInit, onError and onDestroy only perform
external effects, so only their presence is modelled. -/
structure PluginHooks where
  onInit : Bool := false
  onBeforeChat : Option (MiddlewareContext → MiddlewareContext) := none
  onAfterChat : Option (ChatResponse → MiddlewareContext → ChatResponse) := none
  onError : Bool := false
  onDestroy : Bool := false

/-- A plugin. -/
structure Plugin where
  name : String
  version : String := ""
  hooks : PluginHooks := {}

/-- Observable engine actions, recorded in order: which hooks ran, that
the middleware pipeline was executed, and which provider operation was
called. -/
inductive EngineEvent where
  | initHook (plugin : String)
  | beforeHook (plugin : String)
  | afterHook (plugin : String)
  | errorHook (plugin : String)
  | pipelineRun
  | providerComplete
  | providerStream
deriving DecidableEq, Repr

/-- The chat engine: configuration, provider, and the registered
middlewares (kept priority-sorted by use), plugins and tools. -/
structure Engine where
  config : ChatConfig
  provider : Provider
  middlewares : List Middleware := []
  plugins : List Plugin := []
  tools : List ToolDefinition := []

/-- Mutable engine state: the conversation store plus a counter that
supplies fresh uuids and timestamps, and the initialized flag. -/
structure EngineState where
  conversations : ConversationStore := ConversationManager.emptyStore
  counter : Nat := 0
  initialized : Bool := false

namespace ChatEngine

/-- A fresh uuid derived from the state counter. -/
def freshId (n : Nat) : String := "uuid-" ++ toString n

/-- Create a message using the state counter for the uuid and the
timestamp. -/
def mkEngineMessage (st : EngineState) (role : Role) (content : String)
    (opts : CreateMessageOptions := {}) : Message × EngineState :=
  (createMessage role content opts (freshId st.counter) (st.counter : Int),
    { st with counter := st.counter + 1 })

/-- ChatEngine.init: run onInit hooks once and set the flag. -/
def initEngine (e : Engine) (st : EngineState) : EngineState × List EngineEvent :=
  if st.initialized then (st, [])
  else
    ({ st with initialized := true },
      e.plugins.filterMap
        (fun p => if p.hooks.onInit then some (.initHook p.name) else none))

/-- The before-chat plugin loop of ChatEngine.chat: fold the context
through every onBeforeChat hook in registration order. -/
def runBeforeHooks (plugins : List Plugin) (ctx : MiddlewareContext) :
    MiddlewareContext × List EngineEvent :=
  plugins.foldl
    (fun acc p =>
      match p.hooks.onBeforeChat with
      | some f => (f acc.1, acc.2 ++ [.beforeHook p.name])
      | none => acc)
    (ctx, [])

/-- The after-chat plugin loop of ChatEngine.chat. -/
def runAfterHooks (plugins : List Plugin) (response : ChatResponse)
    (ctx : MiddlewareContext) : ChatResponse × List EngineEvent :=
  plugins.foldl
    (fun acc p =>
      match p.hooks.onAfterChat with
      | some f => (f acc.1 ctx, acc.2 ++ [.afterHook p.name])
      | none => acc)
    (response, [])

/-- The error plugin loop of ChatEngine.chat (effects only). -/
def errorHookEvents (plugins : List Plugin) : List EngineEvent :=
  plugins.filterMap (fun p => if p.hooks.onError then some (.errorHook p.name) else none)

/-- Tool resolution in chat and stream: request tools win, otherwise the
registered tools when any exist. -/
def resolveTools (e : Engine) (req : ChatRequest) : Option (List ToolDefinition) :=
  match req.options.bind (fun o => o.tools) with
  | some t => some t
  | none => if e.tools.length > 0 then some e.tools else none

/-- ChatEngine.buildProviderMessages: a system message from the
conversation override or the configured prompt (when non-empty),
followed by the truncated conversation history. -/
def buildProviderMessages (e : Engine) (st : EngineState)
    (conversationId : String) : List Message × EngineState :=
  match st.conversations conversationId with
  | none => ([], st)
  | some conversation =>
    let systemPrompt := conversation.metadata.systemPrompt.getD e.config.systemPrompt
    let pair :=
      if systemPrompt ≠ "" then
        let pair2 := mkEngineMessage st .system systemPrompt
        ([pair2.1], pair2.2)
      else ([], st)
    let convMessages := ConversationManager.getMessages pair.2.conversations conversationId
    let truncated := truncateMessages convMessages e.config.memory.maxTokens true
    (pair.1 ++ truncated, pair.2)

/-- One iteration of the ChatEngine.handleToolCalls loop: resolve the
tool, execute it (or produce the not-found / error text), and append
the tool-role message. -/
def toolCallStep (e : Engine) (conversationId : String) (st : EngineState)
    (toolCall : ToolCall) : EngineState :=
  let content :=
    match (e.tools.find? (fun t => t.name = toolCall.name)).bind
        (fun t => t.execute) with
    | none => "Tool not found: " ++ toolCall.name
    | some exec =>
      match exec toolCall.arguments with
      | .ok result => result
      | .error err => "Tool error: " ++ err
  let pair := mkEngineMessage st .tool content
    { toolCallId := some toolCall.id, toolName := some toolCall.name }
  { pair.2 with
    conversations :=
      ConversationManager.addMessage pair.2.conversations conversationId pair.1
        (pair.2.counter : Int) }

/-- ChatEngine.handleToolCalls: execute tools sequentially, recording a
tool-role message per call; a missing tool or a thrown error becomes a
tool-role error message and the loop continues. -/
def handleToolCalls (e : Engine) (st : EngineState) (conversationId : String)
    (toolCalls : List ToolCall) : EngineState :=
  toolCalls.foldl (toolCallStep e conversationId) st

/-- Outcome of ChatEngine.chat: the response (or re-raised provider
error), the final state, and the observable event log. -/
structure ChatOutcome where
  response : Except String ChatResponse
  state : EngineState
  events : List EngineEvent

/-- Outcome of ChatEngine.stream: the yielded chunks, the final state,
and the observable event log. -/
structure StreamOutcome where
  chunks : List StreamChunk
  state : EngineState
  events : List EngineEvent

/-- The conversationId ?? randomUUID() step of both entry points: use
the conversation id of the request or a freshly minted one. -/
def resolveCid (st : EngineState) (req : ChatRequest) : String × EngineState :=
  match req.conversationId with
  | some c => (c, st)
  | none => (freshId st.counter, { st with counter := st.counter + 1 })

/-- The provider request built by both entry points. -/
def buildProviderRequest (e : Engine) (req : ChatRequest)
    (messages : List Message) (tools : Option (List ToolDefinition))
    (stream : Bool) : ProviderRequest :=
  { messages := messages
    model := (req.options.bind (fun o => o.model)).getD e.config.model
    temperature := (req.options.bind (fun o => o.temperature)).getD e.config.temperature
    maxTokens := (req.options.bind (fun o => o.maxTokens)).getD e.config.maxTokens
    tools := tools
    stream := stream }

/-- ChatEngine.chat from the engine module: init, resolve or create the
conversation, run onBeforeChat hooks, run the middleware pipeline; on
block return an assistant error message with finishReason error without
touching the provider; on proceed append the user message, build the
provider messages, call the provider, append the assistant message,
run tool calls and onAfterChat hooks, or run onError hooks and re-raise
a provider failure. -/
def chat (e : Engine) (st0 : EngineState) (req : ChatRequest) : ChatOutcome :=
  let pInit := initEngine e st0
  let st := pInit.1
  let pCid := resolveCid st req
  let st := pCid.2
  let pConv := ConversationManager.getOrCreate st.conversations pCid.1
    (some e.config.systemPrompt) (some e.config.model) (st.counter : Int)
  let conversation := pConv.1
  let st := { st with conversations := pConv.2 }
  let ctx0 : MiddlewareContext :=
    { request := req, conversation := conversation, config := e.config,
      metadata := fun _ => none }
  let pBefore := runBeforeHooks e.plugins ctx0
  let middlewareResult := executeMiddleware e.middlewares pBefore.1
  let events := pInit.2 ++ pBefore.2 ++ [.pipelineRun]
  if middlewareResult.proceed = false then
    let pErr := mkEngineMessage st .assistant
      (middlewareResult.error.getD "Request blocked by middleware")
    { response := .ok
        { message := pErr.1, conversationId := conversation.id, finishReason := .error }
      state := pErr.2
      events := events }
  else
    let context := middlewareResult.context
    let pUser := mkEngineMessage st (req.role.getD .user) req.message
    let userMessage := pUser.1
    let st := pUser.2
    let st := { st with
      conversations :=
        ConversationManager.addMessage st.conversations conversation.id userMessage
          (st.counter : Int) }
    let pMsgs := buildProviderMessages e st conversation.id
    let st := pMsgs.2
    let tools := resolveTools e req
    let preq := buildProviderRequest e req pMsgs.1 tools false
    match e.provider.complete preq with
    | .error err =>
      { response := .error err
        state := st
        events := events ++ [.providerComplete] ++ errorHookEvents e.plugins }
    | .ok providerResponse =>
      let pAsst := mkEngineMessage st .assistant providerResponse.message.content
        { model := some ((req.options.bind (fun o => o.model)).getD e.config.model)
          tokens := some providerResponse.usage.completionTokens
          latencyMs := some 0
          finishReason := some providerResponse.finishReason }
      let assistantMessage := pAsst.1
      let st := pAsst.2
      let st := { st with
        conversations :=
          ConversationManager.addMessage st.conversations conversation.id
            assistantMessage (st.counter : Int) }
      let st :=
        match providerResponse.toolCalls with
        | some tcs =>
          if tcs.length > 0 then handleToolCalls e st conversation.id tcs else st
        | none => st
      let response0 : ChatResponse :=
        { message := assistantMessage
          conversationId := conversation.id
          usage := some providerResponse.usage
          toolCalls := providerResponse.toolCalls
          finishReason := providerResponse.finishReason }
      let pAfter := runAfterHooks e.plugins response0 context
      { response := .ok pAfter.1
        state := st
        events := events ++ [.providerComplete] ++ pAfter.2 }

/-- ChatEngine.stream from the engine module: init, resolve or create
the conversation, append the user message immediately, build the
provider messages and stream from the provider, then persist the full
concatenated token text as the assistant message when non-empty.  No
plugin before or after hooks and no middleware pipeline appear on this
path. -/
def stream (e : Engine) (st0 : EngineState) (req : ChatRequest) : StreamOutcome :=
  let pInit := initEngine e st0
  let st := pInit.1
  let pCid := resolveCid st req
  let st := pCid.2
  let pConv := ConversationManager.getOrCreate st.conversations pCid.1
    (some e.config.systemPrompt) (some e.config.model) (st.counter : Int)
  let conversation := pConv.1
  let st := { st with conversations := pConv.2 }
  let pUser := mkEngineMessage st (req.role.getD .user) req.message
  let userMessage := pUser.1
  let st := pUser.2
  let st := { st with
    conversations :=
      ConversationManager.addMessage st.conversations conversation.id userMessage
        (st.counter : Int) }
  let pMsgs := buildProviderMessages e st conversation.id
  let st := pMsgs.2
  let tools := resolveTools e req
  let chunks := e.provider.stream (buildProviderRequest e req pMsgs.1 tools true)
  let fullContent := concatTokenData chunks
  let st :=
    if fullContent ≠ "" then
      let pAsst := mkEngineMessage st .assistant fullContent
        { model := some ((req.options.bind (fun o => o.model)).getD e.config.model)
          tokens := some (estimateTokens fullContent) }
      { pAsst.2 with
        conversations :=
          ConversationManager.addMessage pAsst.2.conversations conversation.id pAsst.1
            (pAsst.2.counter : Int) }
    else st
  { chunks := chunks, state := st, events := pInit.2 ++ [.providerStream] }

end ChatEngine

/-- Number of stored non-system messages. -/
def nonSystemCount (l : List Message) : Nat :=
  (l.filter (fun m => m.role ≠ Role.system)).length

/-- A middleware that blocks every request, for the engine scenarios. -/
def blockAllMiddleware : Middleware :=
  { name := "block-all"
    execute := fun ctx _ => { proceed := false, context := ctx, error := some "blocked" } }

/-- A provider with a fixed completion and no stream chunks, for the
engine scenarios. -/
def quietProvider : Provider :=
  { complete := fun _ => Except.ok
      { message := createMessage .assistant "mock reply"
        usage := { promptTokens := 0, completionTokens := 0, totalTokens := 0 }
        finishReason := .stop }
    stream := fun _ => [] }

/-- An engine whose only middleware blocks every request. -/
def blockAllEngine : Engine :=
  { config := {}
    provider := quietProvider
    middlewares := [blockAllMiddleware]
    plugins := [{ name := "observer", hooks := { onBeforeChat := some (fun c => c) } }] }

/-- An engine with no middleware registered. -/
def openEngine : Engine :=
  { config := {}
    provider := quietProvider }

/-- A request addressed to conversation conv1. -/
def helloRequest : ChatRequest :=
  { conversationId := some "conv1", message := "hello" }

/-- A request with an empty message, addressed to conversation conv2. -/
def emptyMessageRequest : ChatRequest :=
  { conversationId := some "conv2", message := "" }

/-- A concrete middleware context for probing the pipeline. -/
def demoContext : MiddlewareContext :=
  { request := helloRequest
    conversation := { id := "conv1" }
    config := {}
    metadata := fun _ => none }

/-!  Supporting lemmas and claim theorems. -/

theorem sliceLast_length_le {α : Type} (w : Nat) (hw : 1 ≤ w) (l : List α) :
    (sliceLast w l).length ≤ w := by
  unfold sliceLast
  rw [if_neg (by omega), List.length_drop]
  omega

theorem nonSystemCount_applyWindow (opts : SlidingWindowOptions)
    (hw : 1 ≤ opts.windowSize) (messages : List Message) :
    nonSystemCount (SlidingWindowMemory.applyWindow opts messages) ≤ opts.windowSize := by
  unfold nonSystemCount
  simp only [SlidingWindowMemory.applyWindow]
  rw [List.filter_append, List.length_append]
  have hsys : ((if opts.keepSystemMessages then
      messages.filter (fun m => m.role = Role.system) else []).filter
        (fun m => m.role ≠ Role.system)) = [] := by
    split
    · simp [List.filter_filter]
    · simp
  rw [hsys]
  simp only [List.length_nil, Nat.zero_add]
  refine le_trans (List.length_filter_le _ _) ?_
  exact sliceLast_length_le _ hw _

theorem applySaves_bounded (opts : SlidingWindowOptions) (hw : 1 ≤ opts.windowSize)
    (saves : List (String × List Message)) :
    ∀ store : SlidingWindowMemory.Store,
      (∀ k, nonSystemCount (store k) ≤ opts.windowSize) →
      ∀ k, nonSystemCount (SlidingWindowMemory.applySaves opts saves store k) ≤
        opts.windowSize := by
  induction saves with
  | nil => intro store h k; exact h k
  | cons sv rest ih =>
    intro store h k
    apply ih
    intro k2
    simp only [SlidingWindowMemory.save]
    split
    · exact nonSystemCount_applyWindow opts hw _
    · exact h k2

/-- C6 (counterexample): with windowSize 0, one save of one user message
leaves one stored non-system message, exceeding the window size — the
JavaScript slice(-0) call copies the whole array, so the claimed bound
fails for w = 0. -/
theorem C6_counterexample :
    ¬ nonSystemCount
        (SlidingWindowMemory.load
          (SlidingWindowMemory.applySaves { windowSize := 0, maxTokens := 8192 }
            [("c", [{ id := "m0", role := .user, content := "M0" }])]
            SlidingWindowMemory.emptyStore) "c") ≤ 0 := by
  decide

/-- C6 (amended): for every window size of at least 1 and every sequence
of save calls starting from the empty store, the stored non-system
message count of every conversation never exceeds the window size. -/
theorem C6_sliding_window_bounded (opts : SlidingWindowOptions)
    (hw : 1 ≤ opts.windowSize) (saves : List (String × List Message)) (k : String) :
    nonSystemCount
      (SlidingWindowMemory.load
        (SlidingWindowMemory.applySaves opts saves SlidingWindowMemory.emptyStore) k) ≤
      opts.windowSize :=
  applySaves_bounded opts hw saves SlidingWindowMemory.emptyStore
    (fun _ => by simp [SlidingWindowMemory.emptyStore, nonSystemCount]) k

/-- C6 (witness): with windowSize 3, saving the five user messages M0
to M4 keeps at most 3 non-system messages, and load returns exactly
M2, M3, M4. -/
theorem C6_witness :
    1 ≤ 3 ∧
    nonSystemCount
      (SlidingWindowMemory.load
        (SlidingWindowMemory.applySaves { windowSize := 3, maxTokens := 8192 }
          [("c", [{ id := "m0", role := .user, content := "M0" }]),
           ("c", [{ id := "m1", role := .user, content := "M1" }]),
           ("c", [{ id := "m2", role := .user, content := "M2" }]),
           ("c", [{ id := "m3", role := .user, content := "M3" }]),
           ("c", [{ id := "m4", role := .user, content := "M4" }])]
          SlidingWindowMemory.emptyStore) "c") ≤ 3 ∧
    SlidingWindowMemory.load
      (SlidingWindowMemory.applySaves { windowSize := 3, maxTokens := 8192 }
        [("c", [{ id := "m0", role := .user, content := "M0" }]),
         ("c", [{ id := "m1", role := .user, content := "M1" }]),
         ("c", [{ id := "m2", role := .user, content := "M2" }]),
         ("c", [{ id := "m3", role := .user, content := "M3" }]),
         ("c", [{ id := "m4", role := .user, content := "M4" }])]
        SlidingWindowMemory.emptyStore) "c" =
      [{ id := "m2", role := .user, content := "M2" },
       { id := "m3", role := .user, content := "M3" },
       { id := "m4", role := .user, content := "M4" }] :=
  ⟨by decide,
   C6_sliding_window_bounded { windowSize := 3, maxTokens := 8192 } (by decide) _ "c",
   by decide⟩

/-- C7 (counterexample): with recentCount 0, a save of one message makes
the total stored count exceed recentCount, but the raw store then holds
that one message rather than the zero most-recent messages — JavaScript
slice(-0) copies the whole array. -/
theorem C7_counterexample :
    (SummaryMemory.save
        { recentCount := 0, maxSummaryTokens := 100, summarizer := defaultSummarizer }
        SummaryMemory.emptyState "c" [{ id := "m0", role := .user, content := "M0" }]
        "s0" 0).store "c" =
      [{ id := "m0", role := .user, content := "M0" }] ∧
    ¬ ((SummaryMemory.save
        { recentCount := 0, maxSummaryTokens := 100, summarizer := defaultSummarizer }
        SummaryMemory.emptyState "c" [{ id := "m0", role := .user, content := "M0" }]
        "s0" 0).store "c").length = 0 := by
  decide

/-- C7 (amended): for recentCount at least 1, after a save that makes
the total stored messages exceed recentCount, the raw store holds
exactly the recentCount most-recent messages — the suffix of the
accumulated list — and the stored summary becomes exactly the
summarizer delegate result on the serialized overflow (which itself
embeds the previous summary text), replacing the previous summary. -/
theorem C7_summary_overflow (opts : SummaryMemoryOptions) (hrc : 1 ≤ opts.recentCount)
    (st : SummaryState) (cid : String) (messages : List Message)
    (fid : String) (now : Int)
    (hov : opts.recentCount < (st.store cid ++ messages).length) :
    (SummaryMemory.save opts st cid messages fid now).store cid =
      (st.store cid ++ messages).drop
        ((st.store cid ++ messages).length - opts.recentCount) ∧
    ((SummaryMemory.save opts st cid messages fid now).store cid).length =
      opts.recentCount ∧
    (SummaryMemory.save opts st cid messages fid now).store cid <:+
      (st.store cid ++ messages) ∧
    (SummaryMemory.save opts st cid messages fid now).summaries cid =
      some (opts.summarizer [createMessage .system
        (SummaryMemory.summaryInput st cid
          ((st.store cid ++ messages).take
            ((st.store cid ++ messages).length - opts.recentCount)))
        {} fid now]) := by
  have hrc0 : ¬ (opts.recentCount = 0) := by omega
  have hstore : (SummaryMemory.save opts st cid messages fid now).store cid =
      (st.store cid ++ messages).drop
        ((st.store cid ++ messages).length - opts.recentCount) := by
    simp only [SummaryMemory.save, hov, if_true, sliceLast, hrc0, if_false]
  refine ⟨hstore, ?_, ?_, ?_⟩
  · rw [hstore, List.length_drop]
    omega
  · rw [hstore]
    exact List.drop_suffix _ _
  · simp only [SummaryMemory.save, hov, if_true]

/-- C7 (witness): recentCount 1, saving M0 and M1 into an empty store
overflows and retains exactly the single most-recent message M1. -/
theorem C7_witness :
    1 ≤ ({ recentCount := 1, maxSummaryTokens := 100,
           summarizer := defaultSummarizer : SummaryMemoryOptions }).recentCount ∧
    ({ recentCount := 1, maxSummaryTokens := 100,
       summarizer := defaultSummarizer : SummaryMemoryOptions }).recentCount <
      (SummaryMemory.emptyState.store "c" ++
        ([{ id := "m0", role := .user, content := "M0" },
          { id := "m1", role := .user, content := "M1" }] : List Message)).length ∧
    (SummaryMemory.save
        { recentCount := 1, maxSummaryTokens := 100, summarizer := defaultSummarizer }
        SummaryMemory.emptyState "c"
        [{ id := "m0", role := .user, content := "M0" },
         { id := "m1", role := .user, content := "M1" }] "s0" 0).store "c" =
      [{ id := "m1", role := .user, content := "M1" }] :=
  ⟨by decide, by decide,
   (C7_summary_overflow
      ({ recentCount := 1, maxSummaryTokens := 100,
         summarizer := defaultSummarizer : SummaryMemoryOptions })
      (by decide) SummaryMemory.emptyState "c"
      ([{ id := "m0", role := .user, content := "M0" },
        { id := "m1", role := .user, content := "M1" }] : List Message)
      "s0" 0 (by decide)).1⟩

theorem dropFirstNonSummary_filter {l : List Message} {m : Message} {rest : List Message}
    (h : SummaryMemory.dropFirstNonSummary l = some (m, rest)) :
    rest.filter (fun x => jsStartsWith x.content summaryMarker) =
      l.filter (fun x => jsStartsWith x.content summaryMarker) := by
  induction l generalizing m rest with
  | nil => simp [SummaryMemory.dropFirstNonSummary] at h
  | cons x xs ih =>
    simp only [SummaryMemory.dropFirstNonSummary] at h
    by_cases hx : jsStartsWith x.content summaryMarker
    · rw [if_pos hx] at h
      cases he : SummaryMemory.dropFirstNonSummary xs with
      | none => rw [he] at h; simp at h
      | some p =>
        obtain ⟨m1, r1⟩ := p
        rw [he] at h
        simp only [Option.map_some', Option.some.injEq, Prod.mk.injEq] at h
        obtain ⟨h1, h2⟩ := h
        subst h2
        rw [List.filter_cons_of_pos (by simpa using hx),
          List.filter_cons_of_pos (by simpa using hx)]
        rw [ih he]
    · rw [if_neg hx] at h
      simp only [Option.some.injEq, Prod.mk.injEq] at h
      obtain ⟨h1, h2⟩ := h
      subst h2
      rw [List.filter_cons_of_neg (by simpa using hx)]

theorem dropFirstNonSummary_length_eq {l : List Message} {m : Message}
    {rest : List Message}
    (h : SummaryMemory.dropFirstNonSummary l = some (m, rest)) :
    rest.length + 1 = l.length := by
  induction l generalizing m rest with
  | nil => simp [SummaryMemory.dropFirstNonSummary] at h
  | cons x xs ih =>
    simp only [SummaryMemory.dropFirstNonSummary] at h
    by_cases hx : jsStartsWith x.content summaryMarker
    · rw [if_pos hx] at h
      cases he : SummaryMemory.dropFirstNonSummary xs with
      | none => rw [he] at h; simp at h
      | some p =>
        obtain ⟨m1, r1⟩ := p
        rw [he] at h
        simp only [Option.map_some', Option.some.injEq, Prod.mk.injEq] at h
        obtain ⟨h1, h2⟩ := h
        subst h2
        have := ih he
        simp only [List.length_cons]
        omega
    · rw [if_neg hx] at h
      simp only [Option.some.injEq, Prod.mk.injEq] at h
      obtain ⟨h1, h2⟩ := h
      subst h2
      simp

theorem evictLoop_filter (maxTokens : Int) (total : Int) (result : List Message) :
    (SummaryMemory.evictLoop maxTokens total result).filter
        (fun m => jsStartsWith m.content summaryMarker) =
      result.filter (fun m => jsStartsWith m.content summaryMarker) := by
  induction total, result using SummaryMemory.evictLoop.induct maxTokens with
  | case1 total result hcond h => rw [SummaryMemory.evictLoop, if_pos hcond, h]
  | case2 total result hcond p h ih =>
    rw [SummaryMemory.evictLoop, if_pos hcond, h]
    rw [ih]
    exact dropFirstNonSummary_filter h
  | case3 total result hcond => rw [SummaryMemory.evictLoop, if_neg hcond]

theorem evictLoop_length_pos (maxTokens : Int) (total : Int) (result : List Message) :
    0 < result.length → 0 < (SummaryMemory.evictLoop maxTokens total result).length := by
  induction total, result using SummaryMemory.evictLoop.induct maxTokens with
  | case1 total result hcond hdrop =>
    intro h
    rw [SummaryMemory.evictLoop, if_pos hcond, hdrop]
    exact h
  | case2 total result hcond p hdrop ih =>
    intro _
    rw [SummaryMemory.evictLoop, if_pos hcond, hdrop]
    apply ih
    have hl := dropFirstNonSummary_length_eq hdrop
    have h2 := hcond.2
    omega
  | case3 total result hcond =>
    intro h
    rw [SummaryMemory.evictLoop, if_neg hcond]
    exact h

/-- C10: getContext never removes a message whose content starts with
the literal summary marker (the messages starting with the marker in
the result are exactly those in the load output, so an ordinary stored
message beginning with the marker is also never evicted); eviction
stops once a single message remains, so a non-empty load always yields
a non-empty context; and the returned list can exceed the maxTokens
budget. -/
theorem C10_summary_never_evicted (st : SummaryState) (cid : String)
    (maxTokens : Int) (fid : String) (now : Int) :
    ((SummaryMemory.getContext st cid maxTokens fid now).filter
        (fun m => jsStartsWith m.content summaryMarker) =
      (SummaryMemory.load st cid fid now).filter
        (fun m => jsStartsWith m.content summaryMarker)) ∧
    (SummaryMemory.load st cid fid now ≠ [] →
      SummaryMemory.getContext st cid maxTokens fid now ≠ []) ∧
    (∃ (st2 : SummaryState) (cid2 : String) (maxTokens2 : Int)
        (fid2 : String) (now2 : Int),
      maxTokens2 <
        (estimateMessagesTokens
          (SummaryMemory.getContext st2 cid2 maxTokens2 fid2 now2) : Int)) := by
  refine ⟨evictLoop_filter _ _ _, ?_, ?_⟩
  · intro h
    exact List.length_pos.mp
      (evictLoop_length_pos maxTokens _ _ (List.length_pos.mpr h))
  · refine ⟨{ store := (fun k => if k = "c" then [{ id := "m0", role := .user, content := "hello" }] else []), summaries := fun _ => none }, "c", 0, "f", 0, ?_⟩
    have hload : SummaryMemory.load
        { store := (fun k => if k = "c" then [{ id := "m0", role := .user, content := "hello" }] else []), summaries := fun _ => none } "c" "f" 0 =
        [{ id := "m0", role := .user, content := "hello" }] := by
      simp [SummaryMemory.load]
    have hctx : SummaryMemory.getContext
        { store := (fun k => if k = "c" then [{ id := "m0", role := .user, content := "hello" }] else []), summaries := fun _ => none } "c" 0 "f" 0 =
        [{ id := "m0", role := .user, content := "hello" }] := by
      unfold SummaryMemory.getContext
      rw [hload]
      rw [SummaryMemory.evictLoop, if_neg (by simp)]
    rw [hctx]
    decide

/-- C10 (witness): a store holding one ordinary message gives a
non-empty load, and getContext with a zero budget still returns a
non-empty list. -/
theorem C10_witness :
    SummaryMemory.load
      { store := (fun k => if k = "c" then [{ id := "m0", role := .user, content := "hello" }] else []), summaries := fun _ => none } "c" "f" 0 ≠ [] ∧
    SummaryMemory.getContext
      { store := (fun k => if k = "c" then [{ id := "m0", role := .user, content := "hello" }] else []), summaries := fun _ => none } "c" 0 "f" 0 ≠ [] :=
  ⟨by simp [SummaryMemory.load],
   (C10_summary_never_evicted
      { store := (fun k => if k = "c" then [{ id := "m0", role := .user, content := "hello" }] else []), summaries := fun _ => none } "c" 0 "f" 0).2.1
     (by simp [SummaryMemory.load])⟩

theorem filterBlock_iff (msg : String) (rules : List ContentFilterRule) (thr : Nat) :
    ((!(filterContent msg rules).safe &&
      (filterContent msg rules).flags.any (fun f => thr ≤ severityOrder f.severity)) = true) ↔
    ∃ rule ∈ rules, rule.pattern msg = true ∧ thr ≤ severityOrder rule.severity := by
  simp only [filterContent, Bool.and_eq_true, Bool.not_eq_true', List.any_eq_true,
    List.mem_map, List.mem_filter, List.isEmpty_eq_false, decide_eq_true_eq]
  constructor
  · rintro ⟨hne, f, ⟨r, ⟨hr, hp⟩, hf⟩, hle⟩
    subst hf
    exact ⟨r, hr, hp, hle⟩
  · rintro ⟨r, hr, hp, hle⟩
    constructor
    · intro hnil
      rw [List.map_eq_nil_iff, List.filter_eq_nil_iff] at hnil
      exact absurd hp (by simpa using hnil r hr)
    · exact ⟨_, ⟨r, ⟨hr, hp⟩, rfl⟩, hle⟩

/-- C5: with a terminal continuation, the content-filter middleware
returns proceed = false exactly when some effective rule matches the
request message with severity at or above the configured block
threshold; when it proceeds, the full filter result (including
sub-threshold flags) is recorded under the contentFilterResult metadata
key; and concretely, with the default rules and blockSeverity medium,
the SSN input is blocked and its flag list is one critical entry. -/
theorem C5_content_filter (options : ContentFilterOptions) (ctx : MiddlewareContext) :
    (((createContentFilter options).execute ctx
        (fun c => { proceed := true, context := c })).proceed = false ↔
      ∃ rule ∈ effectiveRules options, rule.pattern ctx.request.message = true ∧
        severityOrder options.blockSeverity ≤ severityOrder rule.severity) ∧
    (((createContentFilter options).execute ctx
        (fun c => { proceed := true, context := c })).proceed = true →
      ((createContentFilter options).execute ctx
        (fun c => { proceed := true, context := c })).context.metadata "contentFilterResult" =
        some (MetaVal.filterRes (filterContent ctx.request.message (effectiveRules options)))) ∧
    ((createContentFilter { blockSeverity := .medium }).execute
        { request := { message := "My SSN is 123-45-6789" }, conversation := { id := "c" }, config := {}, metadata := fun _ => none }
        (fun c => { proceed := true, context := c })).proceed = false ∧
    (filterContent "My SSN is 123-45-6789" (effectiveRules { blockSeverity := .medium })).flags =
      [{ type := .pii, severity := .critical, matchName := "ssn-pii",
         description := some "SSN pattern detected" }] := by
  refine ⟨?_, ?_, by decide, by decide⟩
  · rw [← filterBlock_iff ctx.request.message (effectiveRules options)
      (severityOrder options.blockSeverity)]
    simp only [createContentFilter]
    by_cases hcond : (!(filterContent ctx.request.message (effectiveRules options)).safe &&
        (filterContent ctx.request.message (effectiveRules options)).flags.any
          (fun f => severityOrder options.blockSeverity ≤ severityOrder f.severity)) = true
    · rw [if_pos hcond]
      simp [hcond]
    · rw [if_neg hcond]
      simp [hcond]
  · simp only [createContentFilter]
    by_cases hcond : (!(filterContent ctx.request.message (effectiveRules options)).safe &&
        (filterContent ctx.request.message (effectiveRules options)).flags.any
          (fun f => severityOrder options.blockSeverity ≤ severityOrder f.severity)) = true
    · rw [if_pos hcond]
      intro h
      simp at h
    · rw [if_neg hcond]
      intro _
      simp [metaSet]

theorem foldl_add_shift {α : Type} (f : Nat → α → Nat) (g : α → Nat)
    (hf : ∀ t m, f t m = t + g m) : ∀ (l : List α) (t : Nat),
    l.foldl f t = t + (l.map g).sum := by
  intro l
  induction l with
  | nil => intro t; simp
  | cons m l ih =>
    intro t
    rw [List.foldl_cons, ih, hf, List.map_cons, List.sum_cons]
    omega

theorem estimateMessagesTokens_eq_sum (l : List Message) :
    estimateMessagesTokens l =
      (l.map (fun m => estimateTokens m.content + 4 +
        (match m.name with | some n => estimateTokens n + 1 | none => 0))).sum := by
  unfold estimateMessagesTokens
  rw [foldl_add_shift _
    (fun m => estimateTokens m.content + 4 +
      (match m.name with | some n => estimateTokens n + 1 | none => 0))
    (by intro t m; cases hm : m.name <;> simp [hm] <;> omega) l 0]
  omega

theorem estimateMessagesTokens_append (a b : List Message) :
    estimateMessagesTokens (a ++ b) =
      estimateMessagesTokens a + estimateMessagesTokens b := by
  simp [estimateMessagesTokens_eq_sum]

theorem truncGo_spec (budget : Int) : ∀ (rev : List Message) (cur : Int) (acc : List Message),
    cur ≤ budget →
    ∃ k : Nat, truncGo budget cur rev acc = (rev.take k).reverse ++ acc ∧
      cur + ((rev.take k).map loopTokens).sum ≤ budget := by
  intro rev
  induction rev with
  | nil =>
    intro cur acc h
    exact ⟨0, by simp [truncGo], by simpa using h⟩
  | cons m rest ih =>
    intro cur acc h
    by_cases hex : cur + loopTokens m > budget
    · refine ⟨0, ?_, ?_⟩
      · rw [truncGo, if_pos hex]
        simp
      · simpa using h
    · push_neg at hex
      obtain ⟨k, hk1, hk2⟩ := ih (cur + loopTokens m) (m :: acc) hex
      refine ⟨k + 1, ?_, ?_⟩
      · rw [truncGo, if_neg (not_lt.mpr hex), hk1, List.take_succ_cons, List.reverse_cons]
        simp
      · rw [List.take_succ_cons, List.map_cons, List.sum_cons]
        omega

theorem estimateMessagesTokens_no_name (t : List Message) :
    (∀ m ∈ t, m.name = none) →
      (estimateMessagesTokens t : Int) = (t.map loopTokens).sum := by
  induction t with
  | nil => intro _; simp [estimateMessagesTokens]
  | cons m rest ih =>
    intro h
    have hm := h m (List.mem_cons_self m rest)
    have hrest := ih (fun x hx => h x (List.mem_cons_of_mem m hx))
    rw [estimateMessagesTokens_eq_sum, List.map_cons, List.sum_cons, hm]
    rw [estimateMessagesTokens_eq_sum] at hrest
    rw [List.map_cons, List.sum_cons]
    push_cast at hrest ⊢
    rw [← hrest]
    unfold loopTokens
    ring

/-- C3 (counterexample): the truncation loop counts only content tokens
plus 4 per message, while estimateMessagesTokens also counts a present
name field; a single user message with a name is kept under a budget of
5 although its estimate is 7 — so the estimate of the returned list can
exceed the budget while non-system messages are returned. -/
theorem C3_counterexample :
    truncateMessages
        [{ id := "m0", role := .user, content := "aaaa", name := some "xxxx" }] 5 true =
      [{ id := "m0", role := .user, content := "aaaa", name := some "xxxx" }] ∧
    ¬ ((estimateMessagesTokens (truncateMessages
        [{ id := "m0", role := .user, content := "aaaa", name := some "xxxx" }] 5 true) : Int)
      ≤ 5) := by
  decide

/-- C3 (amended): with keepSystemMessages = true, truncateMessages
always - for every message list - returns all system messages followed
by a contiguous suffix of the non-system messages; and provided no
non-system message carries a name field, the returned list's
estimateMessagesTokens value does not exceed the budget unless only
system messages are returned. -/
theorem C3_truncate_suffix_budget (messages : List Message) (maxTokens : Int) :
    ∃ t, t <:+ messages.filter (fun m => m.role ≠ Role.system) ∧
      truncateMessages messages maxTokens true =
        messages.filter (fun m => m.role = Role.system) ++ t ∧
      ((∀ m ∈ messages, m.role ≠ Role.system → m.name = none) → t ≠ [] →
        (estimateMessagesTokens (truncateMessages messages maxTokens true) : Int) ≤
          maxTokens) := by
  have hunfold : truncateMessages messages maxTokens true =
      (if maxTokens - (estimateMessagesTokens (messages.filter (fun m => m.role = Role.system)) : Int) ≤ 0
       then messages.filter (fun m => m.role = Role.system)
       else messages.filter (fun m => m.role = Role.system) ++
         truncGo (maxTokens - (estimateMessagesTokens (messages.filter (fun m => m.role = Role.system)) : Int)) 0
           (messages.filter (fun m => m.role ≠ Role.system)).reverse []) := rfl
  by_cases hbud : maxTokens - (estimateMessagesTokens (messages.filter (fun m => m.role = Role.system)) : Int) ≤ 0
  · refine ⟨[], List.nil_suffix, ?_, fun _ h => absurd rfl h⟩
    rw [hunfold, if_pos hbud, List.append_nil]
  · obtain ⟨k, hk1, hk2⟩ := truncGo_spec
      (maxTokens - (estimateMessagesTokens (messages.filter (fun m => m.role = Role.system)) : Int))
      (messages.filter (fun m => m.role ≠ Role.system)).reverse 0 [] (by omega)
    rw [List.append_nil] at hk1
    refine ⟨((messages.filter (fun m => m.role ≠ Role.system)).reverse.take k).reverse,
      ?_, ?_, ?_⟩
    · exact ⟨((messages.filter (fun m => m.role ≠ Role.system)).reverse.drop k).reverse,
        by rw [← List.reverse_append, List.take_append_drop, List.reverse_reverse]⟩
    · rw [hunfold, if_neg hbud, hk1]
    · intro hname ht
      rw [hunfold, if_neg hbud, hk1, estimateMessagesTokens_append]
      have hnames : ∀ m ∈ ((messages.filter (fun m => m.role ≠ Role.system)).reverse.take k).reverse,
          m.name = none := by
        intro m hm
        have h1 : m ∈ (messages.filter (fun m => m.role ≠ Role.system)).reverse.take k := by
          simpa using hm
        have h2 : m ∈ messages.filter (fun m => m.role ≠ Role.system) := by
          have := List.mem_of_mem_take h1
          simpa using this
        rw [List.mem_filter] at h2
        exact hname m h2.1 (by simpa using h2.2)
      have hsum := estimateMessagesTokens_no_name _ hnames
      push_cast
      rw [hsum, List.map_reverse, List.sum_reverse]
      omega

/-- C3 (witness): a system and a user message without name fields — the
amended bound applies and the truncated list fits the budget of 100. -/
theorem C3_witness :
    (∀ m ∈ ([{ id := "s0", role := .system, content := "sys" },
             { id := "m0", role := .user, content := "hello" }] : List Message),
      m.role ≠ Role.system → m.name = none) ∧
    (estimateMessagesTokens (truncateMessages
        [{ id := "s0", role := .system, content := "sys" },
         { id := "m0", role := .user, content := "hello" }] 100 true) : Int) ≤ 100 := by
  constructor
  · decide
  · obtain ⟨t, hsuf, heq, hbound⟩ := C3_truncate_suffix_budget
      [{ id := "s0", role := .system, content := "sys" },
       { id := "m0", role := .user, content := "hello" }] 100
    apply hbound (by decide)
    intro hnil
    rw [hnil] at heq
    revert heq
    decide


theorem splitChar_ne_nil (sep : Char) : ∀ l : List Char, splitChar sep l ≠ [] := by
  intro l
  cases l with
  | nil => simp [splitChar]
  | cons c rest =>
    simp only [splitChar]
    cases h : splitChar sep rest with
    | nil => simp
    | cons w ws =>
      by_cases hc : c = sep <;> simp [hc]

theorem joinChar_splitChar (sep : Char) : ∀ l : List Char,
    joinChar sep (splitChar sep l) = l := by
  intro l
  induction l with
  | nil => rfl
  | cons c rest ih =>
    simp only [splitChar]
    cases h : splitChar sep rest with
    | nil => exact absurd h (splitChar_ne_nil sep rest)
    | cons w ws =>
      rw [h] at ih
      show joinChar sep (if c = sep then [] :: w :: ws else (c :: w) :: ws) = c :: rest
      by_cases hc : c = sep
      · rw [if_pos hc]
        show sep :: joinChar sep (w :: ws) = c :: rest
        rw [ih, hc]
      · rw [if_neg hc]
        cases ws with
        | nil =>
          show c :: w = c :: rest
          simp only [joinChar] at ih
          rw [ih]
        | cons w2 ws2 =>
          show (c :: w) ++ sep :: joinChar sep (w2 :: ws2) = c :: rest
          simp only [joinChar] at ih
          simp only [List.cons_append]
          rw [ih]

theorem joinChar_eq_join (sep : Char) : ∀ (w : List Char) (ws : List (List Char)),
    joinChar sep (w :: ws) = w ++ (ws.map (fun v => sep :: v)).flatten := by
  intro w ws
  induction ws generalizing w with
  | nil => simp [joinChar]
  | cons v vs ih =>
    show w ++ sep :: joinChar sep (v :: vs) = _
    rw [ih v]
    simp


theorem string_mk_append (a b : List Char) :
    String.mk a ++ String.mk b = String.mk (a ++ b) := rfl

theorem enumFrom_map_tokens (now : Int) : ∀ (rest : List String) (n : Nat), 1 ≤ n →
    (List.enumFrom n rest).map (fun iw =>
      createStreamChunk .token (some (if iw.1 = 0 then iw.2 else " " ++ iw.2)) now) =
    rest.map (fun wrd => createStreamChunk .token (some (" " ++ wrd)) now) := by
  intro rest
  induction rest with
  | nil => intro n _; rfl
  | cons w t ih =>
    intro n hn
    show (createStreamChunk .token (some (if n = 0 then w else " " ++ w)) now) ::
      (List.enumFrom (n + 1) t).map _ = _
    rw [if_neg (by omega), List.map_cons, ih (n + 1) (by omega)]

theorem concat_tail_chunks (now : Int) (dc : StreamChunk)
    (hdc : ∀ s2 : String, ¬ (dc.type = StreamChunkType.token ∧ dc.data = some s2)) :
    ∀ (ws : List (List Char)) (acc : String),
      List.foldl (fun acc c =>
          match c.type, c.data with
          | StreamChunkType.token, some s2 => acc ++ s2
          | _, _ => acc) acc
        ((ws.map (fun w => createStreamChunk .token (some (String.mk (' ' :: w))) now)) ++ [dc]) =
      acc ++ String.mk ((ws.map (fun v => ' ' :: v)).flatten) := by
  intro ws
  induction ws with
  | nil =>
    intro acc
    simp only [List.map_nil, List.nil_append, List.foldl_cons, List.foldl_nil]
    cases h1 : dc.type <;> cases h2 : dc.data <;> simp_all
  | cons w t ih =>
    intro acc
    simp only [List.map_cons, List.cons_append, List.foldl_cons]
    rw [ih]
    show (acc ++ String.mk (' ' :: w)) ++ String.mk ((t.map (fun v => ' ' :: v)).flatten) =
      acc ++ String.mk (((' ' :: w) :: t.map (fun v => ' ' :: v)).flatten)
    rw [String.append_assoc, string_mk_append]
    rfl


theorem concat_mock_stream (s : String) (now : Int) (dc : StreamChunk)
    (hdc : ∀ s2 : String, ¬ (dc.type = StreamChunkType.token ∧ dc.data = some s2)) :
    concatTokenData (((jsSplitSpace s).enum.map (fun iw =>
      createStreamChunk .token (some (if iw.1 = 0 then iw.2 else " " ++ iw.2)) now)) ++ [dc]) = s := by
  obtain ⟨w0, ws, hsplit⟩ : ∃ w0 ws, splitChar ' ' s.toList = w0 :: ws := by
    cases h : splitChar ' ' s.toList with
    | nil => exact absurd h (splitChar_ne_nil ' ' s.toList)
    | cons a b => exact ⟨a, b, rfl⟩
  unfold jsSplitSpace concatTokenData
  rw [hsplit, List.map_cons]
  rw [show List.enum (String.mk w0 :: ws.map String.mk) =
    ((0 : Nat), String.mk w0) :: List.enumFrom 1 (ws.map String.mk) from rfl]
  rw [List.map_cons, enumFrom_map_tokens now (ws.map String.mk) 1 (le_refl 1), List.map_map]
  rw [List.cons_append, List.foldl_cons]
  show List.foldl (fun acc c =>
      match c.type, c.data with
      | StreamChunkType.token, some s2 => acc ++ s2
      | _, _ => acc) ("" ++ String.mk w0)
    ((ws.map (fun w => createStreamChunk .token (some (String.mk (' ' :: w))) now)) ++ [dc]) = s
  rw [concat_tail_chunks now dc hdc ws]
  rw [show ("" ++ String.mk w0) = String.mk w0 from rfl]
  rw [string_mk_append, ← joinChar_eq_join ' ' w0 ws, ← hsplit, joinChar_splitChar]
  rfl

/-- C9: with error simulation disabled, MockProvider.complete succeeds
and the concatenation of the token chunk payloads of MockProvider.stream
equals the content of the message returned by complete for the same
request (both are the deterministic getResponse text). -/
theorem C9_stream_reassembly (opts : MockProviderOptions)
    (hsim : opts.simulateErrors = false) (request : ProviderRequest)
    (randHit randHit2 : Bool) (fid : String) (now now2 : Int) :
    concatTokenData (MockProvider.stream opts randHit2 request now2) =
      MockProvider.getResponse opts request.messages ∧
    Except.map (fun resp : ProviderResponse => resp.message.content)
      (MockProvider.complete opts randHit request fid now) =
      .ok (MockProvider.getResponse opts request.messages) := by
  constructor
  · simp only [MockProvider.stream, hsim, Bool.false_and, Bool.false_eq_true, if_false]
    exact concat_mock_stream _ now2 _ (by intro s2 h; simp [createStreamChunk] at h)
  · simp only [MockProvider.complete, hsim, Bool.false_and, Bool.false_eq_true, if_false]
    rfl

/-- C9 (witness): default mock options (error simulation off) and an
empty request — stream token concatenation equals the default response
text returned by complete. -/
theorem C9_witness :
    ({} : MockProviderOptions).simulateErrors = false ∧
    concatTokenData (MockProvider.stream {} false
        { messages := [], model := "gpt-4o", temperature := 0, maxTokens := 16 } 0) =
      MockProvider.getResponse {} [] :=
  ⟨rfl,
   (C9_stream_reassembly {} rfl
      { messages := [], model := "gpt-4o", temperature := 0, maxTokens := 16 }
      false false "f" 0 0).1⟩


theorem storeSet_lookup (cm : ConversationStore) (k : String) (v : Option Conversation)
    (k2 : String) :
    ConversationManager.storeSet cm k v k2 = if k2 = k then v else cm k2 := rfl

theorem create_preserves_count (cm : ConversationStore)
    (opts : ConversationManager.CreateOptions) (freshId : String) (now : Int)
    (hinv : ∀ id c, cm id = some c → c.metadata.messageCount = (c.messages.length : Int)) :
    ∀ id c, (ConversationManager.create cm opts freshId now).2 id = some c →
      c.metadata.messageCount = (c.messages.length : Int) := by
  intro id c h
  simp only [ConversationManager.create] at h
  rw [storeSet_lookup] at h
  split at h
  · cases h
    simp
  · exact hinv id c h

theorem stepOp_preserves_count (cm : ConversationStore) (op : ConversationManager.MgrOp)
    (hbenign : ConversationManager.benignOp op = true)
    (hinv : ∀ id c, cm id = some c → c.metadata.messageCount = (c.messages.length : Int)) :
    ∀ id c, ConversationManager.stepOp cm op id = some c →
      c.metadata.messageCount = (c.messages.length : Int) := by
  intro id c h
  cases op with
  | create opts freshId now =>
    exact create_preserves_count cm opts freshId now hinv id c h
  | getOrCreate i sp mdl now =>
    simp only [ConversationManager.stepOp, ConversationManager.getOrCreate] at h
    cases hg : cm i with
    | some existing =>
      rw [hg] at h
      exact hinv id c h
    | none =>
      rw [hg] at h
      exact create_preserves_count cm _ "" now hinv id c h
  | addMessage cid m now =>
    simp only [ConversationManager.stepOp, ConversationManager.addMessage] at h
    cases hg : cm cid with
    | none =>
      rw [hg] at h
      exact hinv id c h
    | some c0 =>
      simp only [hg] at h
      rw [storeSet_lookup] at h
      split at h
      · cases h
        simp
      · exact hinv id c h
  | updateMetadata cid u now =>
    simp only [ConversationManager.stepOp, ConversationManager.updateMetadata] at h
    cases hg : cm cid with
    | none =>
      rw [hg] at h
      exact hinv id c h
    | some c0 =>
      simp only [hg] at h
      rw [storeSet_lookup] at h
      split at h
      · cases h
        simp only [ConversationManager.benignOp, Bool.and_eq_true,
          Option.isNone_iff_eq_none] at hbenign
        simp [ConversationManager.applyUpdates, hbenign.1, hbenign.2]
        exact hinv cid c0 hg
      · exact hinv id c h
  | deleteConv cid =>
    simp only [ConversationManager.stepOp, ConversationManager.deleteConv] at h
    rw [storeSet_lookup] at h
    split at h
    · cases h
    · exact hinv id c h
  | clearAll =>
    simp only [ConversationManager.stepOp, ConversationManager.clearAll] at h
    cases h


theorem applyOps_preserves_count (ops : List ConversationManager.MgrOp)
    (hops : ∀ op ∈ ops, ConversationManager.benignOp op = true) :
    ∀ cm : ConversationStore,
      (∀ id c, cm id = some c → c.metadata.messageCount = (c.messages.length : Int)) →
      ∀ id c, ConversationManager.applyOps ops cm id = some c →
        c.metadata.messageCount = (c.messages.length : Int) := by
  induction ops with
  | nil => intro cm hinv id c h; exact hinv id c h
  | cons op rest ih =>
    intro cm hinv id c h
    exact ih (fun o ho => hops o (List.mem_cons_of_mem op ho))
      (ConversationManager.stepOp cm op)
      (stepOp_preserves_count cm op (hops op (List.mem_cons_self op rest)) hinv) id c h

theorem stepOp_tokens_mono (cm : ConversationStore) (op : ConversationManager.MgrOp)
    (hbenign : ConversationManager.benignOp op = true)
    (hfresh : ConversationManager.noOverwrite cm op) :
    ∀ id c c', cm id = some c → ConversationManager.stepOp cm op id = some c' →
      c.metadata.totalTokens ≤ c'.metadata.totalTokens := by
  intro id c c' hc h
  cases op with
  | create opts freshId now =>
    have hfresh2 : cm (opts.id.getD freshId) = none := hfresh
    simp only [ConversationManager.stepOp, ConversationManager.create] at h
    rw [storeSet_lookup] at h
    split at h
    · rename_i hid
      have hid2 : id = opts.id.getD freshId := hid
      rw [hid2, hfresh2] at hc
      cases hc
    · rw [hc] at h
      cases h
      exact le_refl _
  | getOrCreate i sp mdl now =>
    simp only [ConversationManager.stepOp, ConversationManager.getOrCreate] at h
    cases hg : cm i with
    | some existing =>
      simp only [hg] at h
      rw [hc] at h
      cases h
      exact le_refl _
    | none =>
      simp only [hg, ConversationManager.create] at h
      rw [storeSet_lookup] at h
      split at h
      · rename_i hid
        have hid2 : id = i := hid
        rw [hid2, hg] at hc
        cases hc
      · rw [hc] at h
        cases h
        exact le_refl _
  | addMessage cid m now =>
    simp only [ConversationManager.stepOp, ConversationManager.addMessage] at h
    cases hg : cm cid with
    | none =>
      simp only [hg] at h
      rw [hc] at h
      cases h
      exact le_refl _
    | some c0 =>
      simp only [hg] at h
      rw [storeSet_lookup] at h
      split at h
      · rename_i hid
        rw [hid, hg] at hc
        cases hc
        cases h
        simp only []
        omega
      · rw [hc] at h
        cases h
        exact le_refl _
  | updateMetadata cid u now =>
    simp only [ConversationManager.stepOp, ConversationManager.updateMetadata] at h
    cases hg : cm cid with
    | none =>
      simp only [hg] at h
      rw [hc] at h
      cases h
      exact le_refl _
    | some c0 =>
      simp only [hg] at h
      rw [storeSet_lookup] at h
      split at h
      · rename_i hid
        rw [hid, hg] at hc
        cases hc
        cases h
        simp only [ConversationManager.benignOp, Bool.and_eq_true,
          Option.isNone_iff_eq_none] at hbenign
        simp [ConversationManager.applyUpdates, hbenign.1]
      · rw [hc] at h
        cases h
        exact le_refl _
  | deleteConv cid =>
    simp only [ConversationManager.stepOp, ConversationManager.deleteConv] at h
    rw [storeSet_lookup] at h
    split at h
    · cases h
    · rw [hc] at h
      cases h
      exact le_refl _
  | clearAll =>
    simp only [ConversationManager.stepOp, ConversationManager.clearAll] at h
    cases h


/-- C8 (counterexample): updateMetadata accepts caller-supplied
messageCount (and totalTokens) overrides; after creating an empty
conversation and updating with messageCount 5, the stored messageCount
is 5 while the message list is empty. -/
theorem C8_counterexample :
    (ConversationManager.updateMetadata
        (ConversationManager.create ConversationManager.emptyStore { id := some "c" } "u" 0).2
        "c" { messageCount := some 5 } 1 "c").map
      (fun c => (c.metadata.messageCount, (c.messages.length : Int))) = some (5, 0) ∧
    ¬ ((5 : Int) = (0 : Int)) := by
  decide

/-- C8 (amended): for operation sequences whose updateMetadata calls
carry no messageCount or totalTokens overrides, messageCount equals the
message-list length for every held conversation after every operation;
and every such operation that does not re-create an id currently held
never decreases totalTokens of a conversation present before and after
the step. -/
theorem C8_metadata_invariants (ops : List ConversationManager.MgrOp)
    (hops : ∀ op ∈ ops, ConversationManager.benignOp op = true) :
    (∀ id c, ConversationManager.applyOps ops ConversationManager.emptyStore id = some c →
      c.metadata.messageCount = (c.messages.length : Int)) ∧
    (∀ (cm : ConversationStore) (op : ConversationManager.MgrOp),
      ConversationManager.benignOp op = true → ConversationManager.noOverwrite cm op →
      ∀ id c c', cm id = some c → ConversationManager.stepOp cm op id = some c' →
        c.metadata.totalTokens ≤ c'.metadata.totalTokens) :=
  ⟨applyOps_preserves_count ops hops ConversationManager.emptyStore
      (fun id c h => by simp [ConversationManager.emptyStore] at h),
   fun cm op hb hf => stepOp_tokens_mono cm op hb hf⟩

/-- C8 (witness): a single benign create operation, after which the
held conversation has messageCount equal to its (empty) message-list
length. -/
theorem C8_witness :
    (∀ op ∈ ([ConversationManager.MgrOp.create { id := some "c" } "u" 0] :
        List ConversationManager.MgrOp),
      ConversationManager.benignOp op = true) ∧
    ({ id := "c" } : Conversation).metadata.messageCount =
      ((({ id := "c" } : Conversation).messages.length : Nat) : Int) :=
  ⟨by decide,
   (C8_metadata_invariants [ConversationManager.MgrOp.create { id := some "c" } "u" 0]
      (by decide)).1 "c" { id := "c" } (by decide)⟩

theorem getOrCreate_messages (cm : ConversationStore) (id : String)
    (sp mdl : Option String) (now : Int) :
    ∀ k c, (ConversationManager.getOrCreate cm id sp mdl now).2 k = some c →
      c.messages = (match cm k with | some c0 => c0.messages | none => []) := by
  intro k c h
  simp only [ConversationManager.getOrCreate] at h
  cases hg : cm id with
  | some existing =>
    simp only [hg] at h
    rw [h]
  | none =>
    simp only [hg, ConversationManager.create] at h
    rw [storeSet_lookup] at h
    split at h
    · rename_i hid
      have hid2 : k = id := hid
      cases h
      rw [hid2, hg]
    · rw [h]

theorem getOrCreate_present (cm : ConversationStore) (id : String)
    (sp mdl : Option String) (now : Int)
    (hwf : ∀ k c, cm k = some c → c.id = k) :
    (ConversationManager.getOrCreate cm id sp mdl now).2
        (ConversationManager.getOrCreate cm id sp mdl now).1.id =
      some (ConversationManager.getOrCreate cm id sp mdl now).1 := by
  simp only [ConversationManager.getOrCreate]
  cases hg : cm id with
  | some existing =>
    simp only [hg]
    rw [hwf id existing hg]
    exact hg
  | none =>
    simp only [hg, ConversationManager.create]
    rw [storeSet_lookup, if_pos rfl]

theorem addMessage_self (cm : ConversationStore) (cid : String)
    (m : Message) (now : Int) (c0 : Conversation) (h : cm cid = some c0) :
    ConversationManager.addMessage cm cid m now cid =
      some { c0 with
        messages := c0.messages ++ [m]
        metadata := { c0.metadata with
          messageCount := ((c0.messages ++ [m]).length : Nat)
          totalTokens := c0.metadata.totalTokens + estimateTokens m.content }
        updatedAt := now } := by
  simp only [ConversationManager.addMessage, h]
  rw [storeSet_lookup, if_pos rfl]

theorem addMessage_mono (cm : ConversationStore) (cid : String)
    (m : Message) (now : Int) (k : String) (c0 : Conversation) (h : cm k = some c0) :
    ∃ c, ConversationManager.addMessage cm cid m now k = some c ∧
      ∀ x ∈ c0.messages, x ∈ c.messages := by
  cases hg : cm cid with
  | none =>
    simp only [ConversationManager.addMessage, hg]
    exact ⟨c0, h, fun x hx => hx⟩
  | some cbase =>
    simp only [ConversationManager.addMessage, hg]
    rw [storeSet_lookup]
    by_cases hk : k = cid
    · subst hk
      rw [h] at hg
      cases hg
      rw [if_pos rfl]
      refine ⟨_, rfl, ?_⟩
      intro x hx
      exact List.mem_append_left _ hx
    · rw [if_neg hk]
      exact ⟨c0, h, fun x hx => hx⟩

theorem handleToolCalls_mono (e : Engine) (cid : String) :
    ∀ (tcs : List ToolCall) (st : EngineState) (k : String) (c0 : Conversation),
      st.conversations k = some c0 →
      ∃ c, (ChatEngine.handleToolCalls e st cid tcs).conversations k = some c ∧
        ∀ x ∈ c0.messages, x ∈ c.messages := by
  intro tcs
  induction tcs with
  | nil => intro st k c0 h; exact ⟨c0, h, fun x hx => hx⟩
  | cons tc rest ih =>
    intro st k c0 h
    obtain ⟨c1, hc1, hsub1⟩ := addMessage_mono st.conversations cid _ _ k c0 h
    obtain ⟨c2, hc2, hsub2⟩ := ih (ChatEngine.toolCallStep e cid st tc) k c1 hc1
    exact ⟨c2, hc2, fun x hx => hsub2 x (hsub1 x hx)⟩

theorem buildProviderMessages_conversations (e : Engine) (st : EngineState)
    (cid : String) :
    (ChatEngine.buildProviderMessages e st cid).2.conversations = st.conversations := by
  simp only [ChatEngine.buildProviderMessages]
  cases hg : st.conversations cid with
  | none => rfl
  | some c =>
    simp only []
    split <;> rfl

theorem initEngine_conversations (e : Engine) (st : EngineState) :
    (ChatEngine.initEngine e st).1.conversations = st.conversations := by
  unfold ChatEngine.initEngine
  split <;> rfl

theorem resolveCid_conversations (st : EngineState) (req : ChatRequest) :
    (ChatEngine.resolveCid st req).2.conversations = st.conversations := by
  unfold ChatEngine.resolveCid
  cases req.conversationId <;> rfl

theorem initEngine_events (e : Engine) (st : EngineState) :
    ∀ ev ∈ (ChatEngine.initEngine e st).2, ∃ p, ev = EngineEvent.initHook p := by
  intro ev hev
  unfold ChatEngine.initEngine at hev
  split at hev
  · simp at hev
  · simp only [List.mem_filterMap] at hev
    obtain ⟨p, _, hp⟩ := hev
    split at hp
    · cases hp
      exact ⟨p.name, rfl⟩
    · cases hp

theorem runBeforeHooks_events (plugins : List Plugin) (ctx : MiddlewareContext) :
    ∀ ev ∈ (ChatEngine.runBeforeHooks plugins ctx).2,
      ∃ p, ev = EngineEvent.beforeHook p := by
  have go : ∀ (ps : List Plugin) (acc : MiddlewareContext × List EngineEvent) ev,
      ev ∈ (ps.foldl
        (fun acc p =>
          match p.hooks.onBeforeChat with
          | some f => (f acc.1, acc.2 ++ [EngineEvent.beforeHook p.name])
          | none => acc) acc).2 →
      ev ∈ acc.2 ∨ ∃ p, ev = EngineEvent.beforeHook p := by
    intro ps
    induction ps with
    | nil => intro acc ev h; exact Or.inl h
    | cons p rest ih =>
      intro acc ev h
      rw [List.foldl_cons] at h
      cases hb : p.hooks.onBeforeChat with
      | none =>
        simp only [hb] at h
        exact ih acc ev h
      | some f =>
        simp only [hb] at h
        rcases ih _ ev h with hin | hex
        · rw [List.mem_append] at hin
          rcases hin with h1 | h1
          · exact Or.inl h1
          · simp only [List.mem_singleton] at h1
            exact Or.inr ⟨p.name, h1⟩
        · exact Or.inr hex
  intro ev hev
  rcases go plugins (ctx, []) ev hev with hin | hex
  · simp at hin
  · exact hex

theorem stream_events (e : Engine) (st0 : EngineState) (req : ChatRequest) :
    (ChatEngine.stream e st0 req).events =
      (ChatEngine.initEngine e st0).2 ++ [EngineEvent.providerStream] := rfl



theorem chat_blocked (e : Engine) (st0 : EngineState) (req : ChatRequest)
    (hblock : ∀ ctx, (executeMiddleware e.middlewares ctx).proceed = false) :
    (∃ r, (ChatEngine.chat e st0 req).response = Except.ok r ∧
        r.finishReason = FinishReason.error)
    ∧ EngineEvent.providerComplete ∉ (ChatEngine.chat e st0 req).events
    ∧ ∀ k c, (ChatEngine.chat e st0 req).state.conversations k = some c →
        c.messages =
          (match st0.conversations k with | some c0 => c0.messages | none => []) := by
  simp only [ChatEngine.chat]
  rw [hblock, if_pos rfl]
  refine ⟨⟨_, rfl, rfl⟩, ?_, ?_⟩
  · intro hmem
    simp only [List.mem_append] at hmem
    rcases hmem with (h1 | h1) | h1
    · obtain ⟨p, hp⟩ := initEngine_events e st0 _ h1
      exact EngineEvent.noConfusion hp
    · obtain ⟨p, hp⟩ := runBeforeHooks_events e.plugins _ _ h1
      exact EngineEvent.noConfusion hp
    · simp at h1
  · intro k c h
    have h3 := getOrCreate_messages _ _ _ _ _ k c h
    rw [resolveCid_conversations, initEngine_conversations] at h3
    exact h3



theorem mkEngineMessage_conversations (st : EngineState) (r : Role) (c : String)
    (o : CreateMessageOptions) :
    (ChatEngine.mkEngineMessage st r c o).2.conversations = st.conversations := rfl

theorem stream_persists_user (e : Engine) (st0 : EngineState) (req : ChatRequest)
    (hwf : ∀ k c, st0.conversations k = some c → c.id = k) :
    ∃ k c, (ChatEngine.stream e st0 req).state.conversations k = some c ∧
      ∃ m ∈ c.messages, m.role = req.role.getD Role.user ∧ m.content = req.message := by
  have hwf2 : ∀ k c,
      (ChatEngine.resolveCid (ChatEngine.initEngine e st0).1 req).2.conversations k
        = some c → c.id = k := by
    rw [resolveCid_conversations, initEngine_conversations]
    exact hwf
  have hpres := getOrCreate_present
    (ChatEngine.resolveCid (ChatEngine.initEngine e st0).1 req).2.conversations
    (ChatEngine.resolveCid (ChatEngine.initEngine e st0).1 req).1
    (some e.config.systemPrompt) (some e.config.model)
    (((ChatEngine.resolveCid (ChatEngine.initEngine e st0).1 req).2.counter : Nat) : Int)
    hwf2
  simp only [ChatEngine.stream]
  split
  · simp only [mkEngineMessage_conversations, buildProviderMessages_conversations]
    obtain ⟨c2, hc2, hsub⟩ :=
      addMessage_mono _ _ _ _ _ _ (addMessage_self _ _ _ _ _ hpres)
    exact ⟨_, c2, hc2,
      _, hsub _ (List.mem_append_right _ (List.mem_singleton.mpr rfl)), rfl, rfl⟩
  · simp only [mkEngineMessage_conversations, buildProviderMessages_conversations]
    exact ⟨_, _, addMessage_self _ _ _ _ _ hpres,
      _, List.mem_append_right _ (List.mem_singleton.mpr rfl), rfl, rfl⟩



theorem handleToolCalls_keeps (e : Engine) (cid : String) (tcs : List ToolCall)
    (st : EngineState) (k : String) (r : Role) (s : String)
    (h : ∃ c0, st.conversations k = some c0 ∧
      ∃ m ∈ c0.messages, m.role = r ∧ m.content = s) :
    ∃ c, (ChatEngine.handleToolCalls e st cid tcs).conversations k = some c ∧
      ∃ m ∈ c.messages, m.role = r ∧ m.content = s := by
  obtain ⟨c0, hc0, m, hm, hr, hs⟩ := h
  obtain ⟨c, hc, hsub⟩ := handleToolCalls_mono e cid tcs st k c0 hc0
  exact ⟨c, hc, m, hsub m hm, hr, hs⟩

theorem chat_proceed_persists (e : Engine) (st0 : EngineState) (req : ChatRequest)
    (hmw : e.middlewares = [])
    (hwf : ∀ k c, st0.conversations k = some c → c.id = k) :
    EngineEvent.providerComplete ∈ (ChatEngine.chat e st0 req).events
    ∧ ∃ k c, (ChatEngine.chat e st0 req).state.conversations k = some c ∧
        ∃ m ∈ c.messages, m.role = req.role.getD Role.user ∧ m.content = req.message := by
  have hwf2 : ∀ k c,
      (ChatEngine.resolveCid (ChatEngine.initEngine e st0).1 req).2.conversations k
        = some c → c.id = k := by
    rw [resolveCid_conversations, initEngine_conversations]
    exact hwf
  have hpres := getOrCreate_present
    (ChatEngine.resolveCid (ChatEngine.initEngine e st0).1 req).2.conversations
    (ChatEngine.resolveCid (ChatEngine.initEngine e st0).1 req).1
    (some e.config.systemPrompt) (some e.config.model)
    (((ChatEngine.resolveCid (ChatEngine.initEngine e st0).1 req).2.counter : Nat) : Int)
    hwf2
  have hproceed : ∀ ctx, (executeMiddleware e.middlewares ctx).proceed = true := by
    intro ctx
    rw [hmw]
    rfl
  simp only [ChatEngine.chat]
  rw [hproceed, if_neg (fun hh => Bool.noConfusion hh)]
  set P := ConversationManager.getOrCreate
    (ChatEngine.resolveCid (ChatEngine.initEngine e st0).1 req).2.conversations
    (ChatEngine.resolveCid (ChatEngine.initEngine e st0).1 req).1
    (some e.config.systemPrompt) (some e.config.model)
    (((ChatEngine.resolveCid (ChatEngine.initEngine e st0).1 req).2.counter : Nat) : Int)
    with hP
  split
  · refine ⟨?_, ?_⟩
    · simp [List.mem_append]
    · simp only [mkEngineMessage_conversations, buildProviderMessages_conversations]
      exact ⟨P.1.id, _, addMessage_self _ _ _ _ _ hpres,
        _, List.mem_append_right _ (List.mem_singleton.mpr rfl), rfl, rfl⟩
  · refine ⟨?_, ?_⟩
    · simp [List.mem_append]
    · simp only [mkEngineMessage_conversations, buildProviderMessages_conversations]
      split
      · split
        · obtain ⟨cA, hcA, hsubA⟩ := addMessage_mono _ P.1.id _ _ P.1.id _
            (addMessage_self _ _ _ _ _ hpres)
          refine ⟨P.1.id, ?_⟩
          apply handleToolCalls_keeps
          exact ⟨cA, hcA,
            _, hsubA _ (List.mem_append_right _ (List.mem_singleton.mpr rfl)), rfl, rfl⟩
        · obtain ⟨cA, hcA, hsubA⟩ := addMessage_mono _ P.1.id _ _ P.1.id _
            (addMessage_self _ _ _ _ _ hpres)
          exact ⟨P.1.id, cA, hcA,
            _, hsubA _ (List.mem_append_right _ (List.mem_singleton.mpr rfl)), rfl, rfl⟩
      · obtain ⟨cA, hcA, hsubA⟩ := addMessage_mono _ P.1.id _ _ P.1.id _
          (addMessage_self _ _ _ _ _ hpres)
        exact ⟨P.1.id, cA, hcA,
          _, hsubA _ (List.mem_append_right _ (List.mem_singleton.mpr rfl)), rfl, rfl⟩



/-- C1 (counterexample): with a middleware registered that blocks every
request, ChatEngine.stream still calls the provider - its event log is
exactly one providerStream event, with no pipelineRun - and it persists
the user message into the conversation. -/
theorem C1_counterexample :
    (executeMiddleware blockAllEngine.middlewares demoContext).proceed = false ∧
    (ChatEngine.stream blockAllEngine {} helloRequest).events =
      [EngineEvent.providerStream] ∧
    ((ChatEngine.stream blockAllEngine {} helloRequest).state.conversations
        "conv1").map (fun c => c.messages.map (fun m => (m.role, m.content)))
      = some [(Role.user, "hello")] := by decide

/-- C1: only the non-streaming entry point has the claimed setup: when
the middleware pipeline blocks every context, ChatEngine.chat answers
with finishReason error, never emits providerComplete and leaves every
conversation with its prior messages; ChatEngine.stream on the same
engine never emits pipelineRun or beforeHook events, always emits
providerStream, and always persists the user message. -/
theorem C1_stream_skips_setup (e : Engine) (st0 : EngineState) (req : ChatRequest)
    (hblock : ∀ ctx, (executeMiddleware e.middlewares ctx).proceed = false)
    (hwf : ∀ k c, st0.conversations k = some c → c.id = k) :
    ((∃ r, (ChatEngine.chat e st0 req).response = Except.ok r ∧
        r.finishReason = FinishReason.error)
      ∧ EngineEvent.providerComplete ∉ (ChatEngine.chat e st0 req).events
      ∧ ∀ k c, (ChatEngine.chat e st0 req).state.conversations k = some c →
          c.messages =
            (match st0.conversations k with | some c0 => c0.messages | none => []))
    ∧ (EngineEvent.pipelineRun ∉ (ChatEngine.stream e st0 req).events
      ∧ (∀ p, EngineEvent.beforeHook p ∉ (ChatEngine.stream e st0 req).events)
      ∧ EngineEvent.providerStream ∈ (ChatEngine.stream e st0 req).events
      ∧ ∃ k c, (ChatEngine.stream e st0 req).state.conversations k = some c ∧
          ∃ m ∈ c.messages, m.role = req.role.getD Role.user ∧
            m.content = req.message) := by
  refine ⟨chat_blocked e st0 req hblock, ?_, ?_, ?_,
    stream_persists_user e st0 req hwf⟩
  · rw [stream_events]
    intro h
    rw [List.mem_append] at h
    rcases h with h | h
    · obtain ⟨p, hp⟩ := initEngine_events e st0 _ h
      exact EngineEvent.noConfusion hp
    · simp at h
  · intro p h
    rw [stream_events, List.mem_append] at h
    rcases h with h | h
    · obtain ⟨q, hq⟩ := initEngine_events e st0 _ h
      exact EngineEvent.noConfusion hq
    · simp at h
  · rw [stream_events]
    exact List.mem_append_right _ (List.mem_singleton.mpr rfl)

/-- C1 (witness): the theorem applied to the block-all engine. -/
theorem C1_witness :
    EngineEvent.providerComplete ∉ (ChatEngine.chat blockAllEngine {} helloRequest).events ∧
    EngineEvent.pipelineRun ∉ (ChatEngine.stream blockAllEngine {} helloRequest).events ∧
    EngineEvent.providerStream ∈ (ChatEngine.stream blockAllEngine {} helloRequest).events :=
  ⟨(C1_stream_skips_setup blockAllEngine {} helloRequest (fun _ => rfl)
      (fun _ _ h => Option.noConfusion h)).1.2.1,
   (C1_stream_skips_setup blockAllEngine {} helloRequest (fun _ => rfl)
      (fun _ _ h => Option.noConfusion h)).2.1,
   (C1_stream_skips_setup blockAllEngine {} helloRequest (fun _ => rfl)
      (fun _ _ h => Option.noConfusion h)).2.2.2.1⟩

/-- C2 (counterexample): the empty message fails validateMessageContent,
yet ChatEngine.chat happily serves it: the provider is called and both
the empty user message and the assistant reply are persisted. -/
theorem C2_counterexample :
    (validateMessageContent "").valid = false ∧
    EngineEvent.providerComplete ∈
      (ChatEngine.chat openEngine {} emptyMessageRequest).events ∧
    ((ChatEngine.chat openEngine {} emptyMessageRequest).state.conversations
        "conv2").map (fun c => c.messages.map (fun m => (m.role, m.content)))
      = some [(Role.user, ""), (Role.assistant, "mock reply")] := by decide

/-- C2: validateMessageContent rejects exactly the empty-after-trim and
oversized messages, but no entry point invokes it: with no middleware
registered, ChatEngine.chat takes every request - the empty message
included - to the provider and persists its user message, so no
validation precedes the state mutation. -/
theorem C2_validation_never_wired (e : Engine) (st0 : EngineState) (req : ChatRequest)
    (hmw : e.middlewares = [])
    (hwf : ∀ k c, st0.conversations k = some c → c.id = k) :
    (∀ content, (validateMessageContent content).valid = false ↔
      ((jsTrim content).length = 0 ∨ content.length > 100000))
    ∧ EngineEvent.providerComplete ∈ (ChatEngine.chat e st0 req).events
    ∧ ∃ k c, (ChatEngine.chat e st0 req).state.conversations k = some c ∧
        ∃ m ∈ c.messages, m.role = req.role.getD Role.user ∧
          m.content = req.message := by
  refine ⟨?_, chat_proceed_persists e st0 req hmw hwf⟩
  intro content
  unfold validateMessageContent
  split
  · rename_i h0
    simp [h0]
  · rename_i h0
    split
    · rename_i h1
      simp [h0, h1]
    · rename_i h1
      simp [h0, h1]

/-- C2 (witness): the theorem applied to the middleware-free engine and
the empty-message request. -/
theorem C2_witness :
    openEngine.middlewares = [] ∧
    EngineEvent.providerComplete ∈
      (ChatEngine.chat openEngine {} emptyMessageRequest).events :=
  ⟨rfl, (C2_validation_never_wired openEngine {} emptyMessageRequest rfl
    (fun _ _ h => Option.noConfusion h)).2.1⟩

end DcyfrChat
